import Mathlib

/-!
Verification development for the ATOL geodetic computation and
runway-procedure derivation engine.

The Python sources are shallowly embedded over the real numbers: every
IEEE-754 double of the source is modelled as a real number, every partial
numeric primitive (`math.atan2`, `%`, `round`) is given its documented
real-number semantics, raising code is modelled with `Except`, and the one
unbounded `while` loop of the source is modelled by fuel-indexed recursion.
-/

open Real

noncomputable section

/-- Python float modulo `x % y`: the result has the sign of the divisor.
For `y > 0` this is `x - y * ⌊x / y⌋`, which lies in `[0, y)`. -/
def pymod (x y : ℝ) : ℝ := x - y * ⌊x / y⌋

/-- C/Python `math.atan2 y x` with its documented branch structure
(`atan2(0, 0) = 0`, as in Python). -/
def atan2 (y x : ℝ) : ℝ :=
  if 0 < x then arctan (y / x)
  else if x < 0 then (if 0 ≤ y then arctan (y / x) + π else arctan (y / x) - π)
  else if 0 < y then π / 2
  else if y < 0 then -(π / 2)
  else 0

/-- Round half to even (banker's rounding), as used by Python `round`. -/
def rhe (x : ℝ) : ℤ :=
  if Int.fract x = 1 / 2 ∧ Odd (round x) then round x - 1 else round x

/-- Python `round(x, n)` on the idealized real value. -/
def pyround (x : ℝ) (n : ℕ) : ℝ := ((rhe (x * 10 ^ n) : ℝ)) / 10 ^ n

/-- `degrees_to_radians` from TT80Calculator.py (also `math.radians`). -/
def degrees_to_radians (d : ℝ) : ℝ := d * π / 180

/-- `radians_to_degrees` from TT80Calculator.py (also `math.degrees`). -/
def radians_to_degrees (r : ℝ) : ℝ := r * 180 / π

/-- `f2m` from runwaykml.py: feet to meters. -/
def f2m (feet : ℝ) : ℝ := feet * 0.3048

/-- `m2f` from runwaykml.py: meters to feet. -/
def m2f (meters : ℝ) : ℝ := meters * 3.28084

/-- `nm2f` from runwaykml.py: nautical miles to feet. -/
def nm2f (nautical_miles : ℝ) : ℝ := nautical_miles * 6076.12

/-! ## TT80Calculator.py: the MATLAB-style `distance` inverse solver -/

/-- The `ELLIPSOIDS` table of TT80Calculator.py: semi-major axis and
flattening by name. -/
def ELLIPSOIDS : String → Option (ℝ × ℝ) := fun name =>
  if name = "WGS84" then some (6378137, 1 / 298.257223563)
  else if name = "GRS80" then some (6378137, 1 / 298.257222101)
  else if name = "Clarke1866" then some (6378206.4, 1 / 294.978698214)
  else if name = "Bessel1841" then some (6377397.155, 1 / 299.1528128)
  else if name = "Airy1830" then some (6377563.396, 1 / 299.3249646)
  else if name = "International1924" then some (6378388, 1 / 297.0)
  else if name = "Krassowsky1940" then some (6378245, 1 / 298.3)
  else if name = "NAD83" then some (6378137, 1 / 298.257222101)
  else if name = "sphere" then some (6371000, 0.0)
  else none

/-- `_normalize_azimuth` from TT80Calculator.py. -/
def normalize_azimuth (azimuth_deg : ℝ) : ℝ :=
  let normalized := pymod azimuth_deg 360
  if 360 ≤ normalized then 0 else normalized

/-- Mutable state of the Vincenty inverse iteration in
`_great_circle_distance` (TT80Calculator.py lines 155-197); the fields are
initialized to `0` exactly as in the source (lines 160-167). -/
structure GCState where
  lambda_val : ℝ
  lambda_prev : ℝ
  sin_sigma : ℝ
  cos_sigma : ℝ
  sigma : ℝ
  sin_alpha : ℝ
  cos2_alpha : ℝ
  cos_2sigma_m : ℝ
  sin_lambda : ℝ
  cos_lambda : ℝ

/-- One body of the `while` loop of `_great_circle_distance`; `none` models
the `return (0.0, 0.0)` on `sin_sigma == 0` (co-incident points). -/
def gcBody (L f sin_U1 cos_U1 sin_U2 cos_U2 : ℝ) (s : GCState) : Option GCState :=
  let sin_lambda := sin s.lambda_val
  let cos_lambda := cos s.lambda_val
  let sin_sigma := Real.sqrt ((cos_U2 * sin_lambda) ^ 2 +
    (cos_U1 * sin_U2 - sin_U1 * cos_U2 * cos_lambda) ^ 2)
  if sin_sigma = 0 then none
  else
    let cos_sigma := sin_U1 * sin_U2 + cos_U1 * cos_U2 * cos_lambda
    let sigma := atan2 sin_sigma cos_sigma
    let sin_alpha := cos_U1 * cos_U2 * sin_lambda / sin_sigma
    let cos2_alpha := 1 - sin_alpha ^ 2
    let cos_2sigma_m := if cos2_alpha = 0 then 0
      else cos_sigma - 2 * sin_U1 * sin_U2 / cos2_alpha
    let C := f / 16 * cos2_alpha * (4 + f * (4 - 3 * cos2_alpha))
    some ⟨L + (1 - C) * f * sin_alpha * (sigma + C * sin_sigma *
            (cos_2sigma_m + C * cos_sigma * (-1 + 2 * cos_2sigma_m ^ 2))),
          s.lambda_val, sin_sigma, cos_sigma, sigma, sin_alpha, cos2_alpha,
          cos_2sigma_m, sin_lambda, cos_lambda⟩

/-- Outcome of the capped inverse loop: convergence with the remaining
iteration budget, or the co-incident early return. -/
inductive GCLoopOut where
  | conv (s : GCState) (iter_left : ℕ)
  | coincident

/-- The capped `while` loop of `_great_circle_distance`
(`iter_limit = 100`, decremented each body). -/
def gcLoop (L f sin_U1 cos_U1 sin_U2 cos_U2 : ℝ) : ℕ → GCState → GCLoopOut
  | 0, s => .conv s 0
  | n + 1, s =>
    if 1e-12 < |s.lambda_val - s.lambda_prev| then
      match gcBody L f sin_U1 cos_U1 sin_U2 cos_U2 s with
      | none => .coincident
      | some s' => gcLoop L f sin_U1 cos_U1 sin_U2 cos_U2 n s'
    else .conv s (n + 1)

/-- `_great_circle_distance` from TT80Calculator.py (Vincenty inverse with
iteration cap 100 and antipodal fallback). -/
def great_circle_distance (lat1 lon1 lat2 lon2 a b f : ℝ) (back_az : Bool) :
    Except String (ℝ × ℝ) :=
  if |lat1 - lat2| < 1e-10 ∧ |lon1 - lon2| < 1e-10 then .ok (0, 0)
  else
    let lat1_rad := degrees_to_radians lat1
    let lon1_rad := degrees_to_radians lon1
    let lat2_rad := degrees_to_radians lat2
    let lon2_rad := degrees_to_radians lon2
    let L := lon2_rad - lon1_rad
    let U1 := arctan ((1 - f) * tan lat1_rad)
    let U2 := arctan ((1 - f) * tan lat2_rad)
    let sin_U1 := sin U1
    let cos_U1 := cos U1
    let sin_U2 := sin U2
    let cos_U2 := cos U2
    match gcLoop L f sin_U1 cos_U1 sin_U2 cos_U2 100
        ⟨L, 2 * π, 0, 0, 0, 0, 0, 0, 0, 0⟩ with
    | .coincident => .ok (0, 0)
    | .conv s iter_left =>
      if iter_left = 0 then
        if abs (|lat1| + |lat2| - 180) < 1e-6 then
          .ok (if lon1 < lon2 then 90 else 270, π * a)
        else .error "Great circle calculation failed to converge"
      else
        let u2 := s.cos2_alpha * (a ^ 2 - b ^ 2) / b ^ 2
        let A := 1 + u2 / 16384 * (4096 + u2 * (-768 + u2 * (320 - 175 * u2)))
        let B := u2 / 1024 * (256 + u2 * (-128 + u2 * (74 - 47 * u2)))
        let delta_sigma := B * s.sin_sigma * (s.cos_2sigma_m + B / 4 *
          (s.cos_sigma * (-1 + 2 * s.cos_2sigma_m ^ 2) - B / 6 * s.cos_2sigma_m *
            (-3 + 4 * s.sin_sigma ^ 2) * (-3 + 4 * s.cos_2sigma_m ^ 2)))
        let dist := b * A * (s.sigma - delta_sigma)
        let azimuth_rad :=
          if back_az then
            atan2 (cos_U1 * s.sin_lambda)
              (-sin_U1 * cos_U2 + cos_U1 * sin_U2 * s.cos_lambda)
          else
            atan2 (cos_U2 * s.sin_lambda)
              (cos_U1 * sin_U2 - sin_U1 * cos_U2 * s.cos_lambda)
        .ok (normalize_azimuth (radians_to_degrees azimuth_rad), dist)

/-- Python `float('inf')`, produced by the isometric latitude at the poles.
No claim-relevant input reaches this branch; it is modelled by a fixed
large constant. -/
def floatInf : ℝ := 10 ^ 308

/-- The inner `isometric_latitude` of `_rhumb_line_distance`. -/
def isometric_latitude (e lat : ℝ) : ℝ :=
  if π / 2 - 1e-10 < |lat| then (if 0 < lat then floatInf else -floatInf)
  else Real.log (tan (π / 4 + lat / 2) *
    ((1 - e * sin lat) / (1 + e * sin lat)) ^ (e / 2))

/-- `_rhumb_line_distance` from TT80Calculator.py. -/
def rhumb_line_distance (lat1 lon1 lat2 lon2 a e : ℝ) (back_az : Bool) : ℝ × ℝ :=
  if |lat1 - lat2| < 1e-10 ∧ |lon1 - lon2| < 1e-10 then (0, 0)
  else
    let lat1_rad := degrees_to_radians lat1
    let lon1_rad := degrees_to_radians lon1
    let lat2_rad := degrees_to_radians lat2
    let lon2_rad := degrees_to_radians lon2
    let dlon0 := lon2_rad - lon1_rad
    let dlon := if π < |dlon0| then
        (if 0 < dlon0 then -(2 * π - dlon0) else 2 * π + dlon0)
      else dlon0
    let psi1 := isometric_latitude e lat1_rad
    let psi2 := isometric_latitude e lat2_rad
    let dpsi := psi2 - psi1
    let azimuth_rad := if |dpsi| < 1e-10 then (if 0 < dlon then π / 2 else -(π / 2))
      else atan2 dlon dpsi
    let azimuth_deg0 := normalize_azimuth (radians_to_degrees azimuth_rad)
    let azimuth_deg := if back_az then normalize_azimuth (azimuth_deg0 + 180)
      else azimuth_deg0
    let dist :=
      if |lat1_rad - lat2_rad| < 1e-10 then
        a * cos lat1_rad * |dlon| / Real.sqrt (1 - e ^ 2 * sin lat1_rad ^ 2)
      else if |dpsi| < 1e-10 then
        a * (1 - e ^ 2) * |lat2_rad - lat1_rad| /
          (1 - e ^ 2 * sin ((lat1_rad + lat2_rad) / 2) ^ 2) ^ (1.5 : ℝ)
      else
        |dpsi| * a * Real.sqrt (1 - e ^ 2 * sin ((lat1_rad + lat2_rad) / 2) ^ 2) /
          |cos azimuth_rad|
    (azimuth_deg, dist)

/-- The two calculation methods accepted by `distance`; the source validates
the method string, which an inductive type models exactly. -/
inductive DistMethod where
  | great_circle
  | rhumb
deriving DecidableEq

/-- `distance` from TT80Calculator.py: `(azimuth, distance)` between two
points, azimuth rounded to 5 decimals and distance to 2 (source lines
127-128); raising is modelled by `Except.error`. -/
def distanceF (pt1 pt2 : ℝ × ℝ) (ellipsoid : String) (method : DistMethod)
    (back_az : Bool) : Except String (ℝ × ℝ) :=
  let lat1 := pt1.1
  let lon1 := pt1.2
  let lat2 := pt2.1
  let lon2 := pt2.2
  if ¬(-90 ≤ lat1 ∧ lat1 ≤ 90 ∧ -90 ≤ lat2 ∧ lat2 ≤ 90) then
    .error "Latitude must be between -90 and 90 degrees"
  else if ¬(-180 ≤ lon1 ∧ lon1 ≤ 180 ∧ -180 ≤ lon2 ∧ lon2 ≤ 180) then
    .error "Longitude must be between -180 and 180 degrees"
  else
    match ELLIPSOIDS ellipsoid with
    | none => .error "Unknown ellipsoid"
    | some af =>
      let a := af.1
      let f := af.2
      let b := a * (1 - f)
      let e := Real.sqrt (2 * f - f ^ 2)
      match method with
      | .great_circle =>
        match great_circle_distance lat1 lon1 lat2 lon2 a b f back_az with
        | .error s => .error s
        | .ok azd => .ok (pyround azd.1 5, pyround azd.2 2)
      | .rhumb =>
        let azd := rhumb_line_distance lat1 lon1 lat2 lon2 a e back_az
        .ok (pyround azd.1 5, pyround azd.2 2)

/-! ## TT80Calculator.py: spherical helpers and the profile generator -/

/-- `calculate_initial_bearing` from TT80Calculator.py: spherical initial
bearing, in radians. -/
def calculate_initial_bearing (lat1 lon1 lat2 lon2 : ℝ) : ℝ :=
  let lat1_rad := degrees_to_radians lat1
  let lat2_rad := degrees_to_radians lat2
  let dlon_rad := degrees_to_radians (lon2 - lon1)
  let y := sin dlon_rad * cos lat2_rad
  let x := cos lat1_rad * sin lat2_rad - sin lat1_rad * cos lat2_rad * cos dlon_rad
  atan2 y x

/-- `calculate_destination_point` from TT80Calculator.py: spherical forward
solution on a sphere of radius 6378137 m; bearing is in radians. -/
def calculate_destination_point (lat lon bearing dist : ℝ) : ℝ × ℝ :=
  let R : ℝ := 6378137
  let lat_rad := degrees_to_radians lat
  let lon_rad := degrees_to_radians lon
  let angular_distance := dist / R
  let lat2_rad := arcsin (sin lat_rad * cos angular_distance +
    cos lat_rad * sin angular_distance * cos bearing)
  let lon2_rad := lon_rad + atan2
    (sin bearing * sin angular_distance * cos lat_rad)
    (cos angular_distance - sin lat_rad * sin lat2_rad)
  let lat2 := radians_to_degrees lat2_rad
  let lon2 := radians_to_degrees lon2_rad
  (lat2, pymod (lon2 + 180) 360 - 180)

/-- `calculate_elevation_slope` from TT80Calculator.py: the angular slope
`atan((elev2 - elev1) / total_distance)`, in radians; `0` for zero
distance. -/
def calculate_elevation_slope (elevation1 elevation2 total_distance : ℝ) : ℝ :=
  if total_distance = 0 then 0
  else arctan ((elevation2 - elevation1) / total_distance)

/-- `interpolate_elevation` from TT80Calculator.py. -/
def interpolate_elevation (start_elevation slope distance_along_path : ℝ) : ℝ :=
  start_elevation + slope * distance_along_path

/-- The condition enforced by `validate_coordinates` in TT80Calculator.py
(raising is modelled by the caller returning `Except.error`). -/
def validCoordinates (lat lon elevation : ℝ) : Prop :=
  -90 ≤ lat ∧ lat ≤ 90 ∧ -180 ≤ lon ∧ lon ≤ 180 ∧
    -11000 ≤ elevation ∧ elevation ≤ 9000

instance validCoordinatesDec (lat lon elevation : ℝ) :
    Decidable (validCoordinates lat lon elevation) := by
  unfold validCoordinates
  infer_instance

/-- One row of the profile built by `generate_equidistant_points`. -/
structure PPoint where
  point_number : ℕ
  point_type : String
  latitude : ℝ
  longitude : ℝ
  elevation_m : ℝ
  distance_from_start_m : ℝ

/-- The per-column rounding applied when building the pandas DataFrame
(TT80Calculator.py lines 553-556). -/
def roundPPoint (p : PPoint) : PPoint :=
  ⟨p.point_number, p.point_type, pyround p.latitude 9, pyround p.longitude 9,
   pyround p.elevation_m 5, pyround p.distance_from_start_m 5⟩

/-- The tuple returned by `generate_equidistant_points`. -/
structure GenResult where
  intermediate_points : List PPoint
  df : List PPoint
  total_distance : ℝ
  elevation_slope : ℝ

/-- `generate_equidistant_points` from TT80Calculator.py. -/
def generate_equidistant_points (lat1 lon1 elev1 lat2 lon2 elev2 : ℝ)
    (num_points : ℕ) : Except String GenResult :=
  if ¬ validCoordinates lat1 lon1 elev1 then .error "Start point"
  else if ¬ validCoordinates lat2 lon2 elev2 then .error "End point"
  else
    let initial_bearing := calculate_initial_bearing lat1 lon1 lat2 lon2
    match distanceF (lat1, lon1) (lat2, lon2) "WGS84" .great_circle false with
    | .error s => .error s
    | .ok azd =>
      let total_distance := azd.2
      let elevation_slope := calculate_elevation_slope elev1 elev2 total_distance
      let distance_interval := total_distance / ((num_points : ℝ) + 1)
      let start_point : PPoint := ⟨0, "Rwy_Start", lat1, lon1, elev1, 0⟩
      let mids := (List.range' 1 num_points).map (fun (i : ℕ) =>
        let distance_from_start := distance_interval * (i : ℝ)
        let ll := calculate_destination_point lat1 lon1 initial_bearing
          distance_from_start
        (⟨i, "TT80_pt_" ++ toString i, ll.1, ll.2,
          interpolate_elevation elev1 elevation_slope distance_from_start,
          distance_from_start⟩ : PPoint))
      let end_point : PPoint :=
        ⟨num_points + 1, "Rwy_End", lat2, lon2, elev2, total_distance⟩
      let points := start_point :: mids ++ [end_point]
      let df := points.map roundPPoint
      .ok ⟨points.filter (fun p => p.point_type = "Intermediate"), df,
           total_distance, elevation_slope⟩

/-! ## coordinate_generator.py: the WGS84 direct solvers -/

/-- Loop state of the angular-distance correction iteration in
`_vincenty_direct` (coordinate_generator.py lines 140-153).  The trig
fields hold the values computed from `sigma` at the start of the last
executed body (unassigned before the first body in Python; initialized to
`0` here). -/
structure VDState where
  sigma_prev : ℝ
  sigma : ℝ
  sin_sigma : ℝ
  cos_sigma : ℝ
  cos_2sigma_m : ℝ

/-- The `delta_sigma` correction computed in each body of the
`_vincenty_direct` loop, as a function of the current `sigma`. -/
def dsig (B sigma1 : ℝ) (sigma : ℝ) : ℝ :=
  let cos_2sigma_m := cos (2 * sigma1 + sigma)
  let sin_sigma := sin sigma
  let cos_sigma := cos sigma
  B * sin_sigma * (cos_2sigma_m + B / 4 * (cos_sigma * (-1 + 2 * cos_2sigma_m ^ 2) -
    B / 6 * cos_2sigma_m * (-3 + 4 * sin_sigma ^ 2) * (-3 + 4 * cos_2sigma_m ^ 2)))

/-- One body of the `_vincenty_direct` loop. -/
def vdStep (B sigma1 sigma0 : ℝ) (s : VDState) : VDState :=
  ⟨s.sigma, sigma0 + dsig B sigma1 s.sigma, sin s.sigma, cos s.sigma,
    cos (2 * sigma1 + s.sigma)⟩

/-- The (uncapped) `while abs(sigma - sigma_prev) > 1e-12` loop of
`_vincenty_direct`, modelled with fuel; `none` means the fuel ran out
before convergence (never reached: see the termination lemmas). -/
def vdLoop (B sigma1 sigma0 : ℝ) : ℕ → VDState → Option VDState
  | 0, _ => none
  | n + 1, s =>
    if 1e-12 < |s.sigma - s.sigma_prev| then
      vdLoop B sigma1 sigma0 n (vdStep B sigma1 sigma0 s)
    else some s

/-- The quantities computed by `_vincenty_direct` before its loop. -/
structure VDParams where
  b : ℝ
  sin_alpha1 : ℝ
  cos_alpha1 : ℝ
  sin_u1 : ℝ
  cos_u1 : ℝ
  sigma1 : ℝ
  sin_alpha : ℝ
  cos2_alpha : ℝ
  bigA : ℝ
  bigB : ℝ
  sigma0 : ℝ

/-- The pre-loop computations of `_vincenty_direct`
(coordinate_generator.py lines 120-137). -/
def vdParams (lat1 bearing dist a f : ℝ) : VDParams :=
  let b := a * (1 - f)
  let sin_alpha1 := sin bearing
  let cos_alpha1 := cos bearing
  let tan_u1 := (1 - f) * tan lat1
  let cos_u1 := 1 / Real.sqrt (1 + tan_u1 ^ 2)
  let sin_u1 := tan_u1 * cos_u1
  let sigma1 := atan2 tan_u1 cos_alpha1
  let sin_alpha := cos_u1 * sin_alpha1
  let cos2_alpha := 1 - sin_alpha ^ 2
  let u2 := cos2_alpha * (a ^ 2 - b ^ 2) / b ^ 2
  let A := 1 + u2 / 16384 * (4096 + u2 * (-768 + u2 * (320 - 175 * u2)))
  let B := u2 / 1024 * (256 + u2 * (-128 + u2 * (74 - 47 * u2)))
  ⟨b, sin_alpha1, cos_alpha1, sin_u1, cos_u1, sigma1, sin_alpha, cos2_alpha,
    A, B, dist / (b * A)⟩

/-- `_vincenty_direct` from coordinate_generator.py: great-circle direct
solution on the ellipsoid; coordinates in radians. -/
def vincenty_direct (fuel : ℕ) (lat1 lon1 bearing dist a f : ℝ) :
    Option (ℝ × ℝ) :=
  let p := vdParams lat1 bearing dist a f
  match vdLoop p.bigB p.sigma1 p.sigma0 fuel ⟨2 * π, p.sigma0, 0, 0, 0⟩ with
  | none => none
  | some s =>
    let tmp := p.sin_u1 * s.sin_sigma - p.cos_u1 * s.cos_sigma * p.cos_alpha1
    let lat2 := atan2 (p.sin_u1 * s.cos_sigma + p.cos_u1 * s.sin_sigma * p.cos_alpha1)
      ((1 - f) * Real.sqrt (p.sin_alpha ^ 2 + tmp ^ 2))
    let lambda_val := atan2 (s.sin_sigma * p.sin_alpha1)
      (p.cos_u1 * s.cos_sigma - p.sin_u1 * s.sin_sigma * p.cos_alpha1)
    let C := f / 16 * p.cos2_alpha * (4 + f * (4 - 3 * p.cos2_alpha))
    let L := lambda_val - (1 - C) * f * p.sin_alpha * (s.sigma + C * s.sin_sigma *
      (s.cos_2sigma_m + C * s.cos_sigma * (-1 + 2 * s.cos_2sigma_m ^ 2)))
    let lon2 := pymod (lon1 + L + 3 * π) (2 * π) - π
    some (lat2, lon2)

/-- `_meridional_radius_of_curvature` from coordinate_generator.py. -/
def meridional_radius_of_curvature (lat a e2 : ℝ) : ℝ :=
  a * (1 - e2) / (1 - e2 * sin lat ^ 2) ^ (1.5 : ℝ)

/-- `_prime_vertical_radius_of_curvature` from coordinate_generator.py. -/
def prime_vertical_radius_of_curvature (lat a e2 : ℝ) : ℝ :=
  a / Real.sqrt (1 - e2 * sin lat ^ 2)

/-- The inner `isometric_latitude` of `_rhumb_line_direct`
(`math.copysign(inf, lat)` at the poles, modelled via `floatInf`). -/
def iso_lat_direct (e2 lat : ℝ) : ℝ :=
  let e := Real.sqrt e2
  if π / 2 ≤ |lat| then (if 0 ≤ lat then floatInf else -floatInf)
  else Real.log (tan (π / 4 + lat / 2)) -
    e / 2 * Real.log ((1 + e * sin lat) / (1 - e * sin lat))

/-- `_rhumb_line_direct` from coordinate_generator.py. -/
def rhumb_line_direct (lat1 lon1 bearing dist a e2 : ℝ) : ℝ × ℝ :=
  if |sin bearing| < 1e-10 then
    let M1 := meridional_radius_of_curvature lat1 a e2
    let delta_lat := dist * cos bearing / M1
    let lat2 := max (-(π / 2)) (min (π / 2) (lat1 + delta_lat))
    (lat2, lon1)
  else if |cos bearing| < 1e-10 then
    let N1 := prime_vertical_radius_of_curvature lat1 a e2
    let delta_lon := dist * sin bearing / (N1 * cos lat1)
    (lat1, lon1 + delta_lon)
  else
    let M1 := meridional_radius_of_curvature lat1 a e2
    let delta_lat := dist * cos bearing / M1
    let lat2 := max (-(π / 2)) (min (π / 2) (lat1 + delta_lat))
    let iso_lat1 := iso_lat_direct e2 lat1
    let iso_lat2 := iso_lat_direct e2 lat2
    let delta_iso_lat := iso_lat2 - iso_lat1
    let delta_lon := if |delta_iso_lat| < 1e-10 then
        dist * sin bearing /
          (prime_vertical_radius_of_curvature lat1 a e2 * cos lat1)
      else delta_iso_lat * tan bearing
    (lat2, lon1 + delta_lon)

/-- The two methods accepted by `generate_wgs84_coordinate`; the source
validates the method string, which an inductive type models exactly. -/
inductive GWCMethod where
  | great_circle
  | rhumb_line
deriving DecidableEq

/-- `generate_wgs84_coordinate` from coordinate_generator.py.  Raising is
modelled by `Except.error`; the uncapped direct loop receives `fuel`. -/
def generate_wgs84_coordinate (fuel : ℕ)
    (latitude longitude elevation bearing dist : ℝ) (method : GWCMethod) :
    Except String (ℝ × ℝ × ℝ) :=
  if ¬(-90 ≤ latitude ∧ latitude ≤ 90) then
    .error "Latitude must be between -90 and 90 degrees"
  else if ¬(-180 ≤ longitude ∧ longitude ≤ 180) then
    .error "Longitude must be between -180 and 180 degrees"
  else if ¬(0 ≤ bearing ∧ bearing ≤ 360) then
    .error "Bearing must be between 0 and 360 degrees"
  else if dist < 0 then .error "Distance must be non-negative"
  else
    let WGS84_A : ℝ := 6378137
    let WGS84_F : ℝ := 1 / 298.257223563
    let WGS84_E2 := WGS84_F * (2 - WGS84_F)
    let lat1_rad := degrees_to_radians latitude
    let lon1_rad := degrees_to_radians longitude
    let bearing_rad := degrees_to_radians bearing
    match method with
    | .great_circle =>
      match vincenty_direct fuel lat1_rad lon1_rad bearing_rad dist
          WGS84_A WGS84_F with
      | none => .error "out of fuel"
      | some ll =>
        let new_longitude := radians_to_degrees ll.2
        .ok (radians_to_degrees ll.1, pymod (new_longitude + 180) 360 - 180,
             elevation)
    | .rhumb_line =>
      let ll := rhumb_line_direct lat1_rad lon1_rad bearing_rad dist
        WGS84_A WGS84_E2
      let new_longitude := radians_to_degrees ll.2
      .ok (radians_to_degrees ll.1, pymod (new_longitude + 180) 360 - 180,
           elevation)

/-! ## geoidheight_fortran.py: the EGM96 geoid height model -/

/-- A spherical-harmonic coefficient table: `(degree, order) ↦ (C, S)`;
`none` models absence of the key from the Python dict. -/
def CoeffTable := ℕ × ℕ → Option (ℝ × ℝ)

/-- `create_correction_coefficients`: the height-anomaly correction table,
built all-zero for degrees `0..360`, orders `0..n`. -/
def create_correction_coefficients : CoeffTable := fun nm =>
  if nm.1 ≤ 360 ∧ nm.2 ≤ nm.1 then some (0, 0) else none

/-- WGS84(G873) `GM` constant of `FortranGeoidHeight`. -/
def geoidGM : ℝ := 3.986004418e14

/-- Semi-major axis `AE` of `FortranGeoidHeight`. -/
def geoidAE : ℝ := 6378137

/-- Reference even-degree zonal harmonics `J2..J10`. -/
def geoidJ2 : ℝ := 0.108262982131e-2

/-- `J4` of `FortranGeoidHeight`. -/
def geoidJ4 : ℝ := -0.237091120053e-5

/-- `J6` of `FortranGeoidHeight`. -/
def geoidJ6 : ℝ := 0.608346498882e-8

/-- `J8` of `FortranGeoidHeight`. -/
def geoidJ8 : ℝ := -0.142681087920e-10

/-- `J10` of `FortranGeoidHeight`. -/
def geoidJ10 : ℝ := 0.121439275882e-13

/-- `_apply_reference_zonals`: adjust the even zonal coefficients of the
potential table (the correction table is untouched). -/
def apply_reference_zonals (hc : CoeffTable) : CoeffTable := fun nm =>
  match hc nm with
  | none => none
  | some cs =>
    if nm = (2, 0) then some (cs.1 + geoidJ2 / Real.sqrt 5, cs.2)
    else if nm = (4, 0) then some (cs.1 + geoidJ4 / 3, cs.2)
    else if nm = (6, 0) then some (cs.1 + geoidJ6 / Real.sqrt 13, cs.2)
    else if nm = (8, 0) then some (cs.1 + geoidJ8 / Real.sqrt 17, cs.2)
    else if nm = (10, 0) then some (cs.1 + geoidJ10 / Real.sqrt 21, cs.2)
    else some cs

/-- The coefficient state of `FortranGeoidHeight.__init__`: the potential
table with reference zonals applied, and the all-zero correction table
(`self.cc` is never reassigned afterwards). -/
def geoidInitHC (hc : CoeffTable) : CoeffTable := apply_reference_zonals hc

/-- The `self.cc` field set by `FortranGeoidHeight.__init__`. -/
def geoidInitCC : CoeffTable := create_correction_coefficients

/-- The inner `m`-loop of `_hundu` for one degree `n` (including the
`m = 0` seed): returns `(sum_val, sumc)`. -/
def hunduInner (p sinml cosml : List ℝ) (hc cc : CoeffTable) (n : ℕ) : ℝ × ℝ :=
  let loc0 := n * (n + 1) / 2 + 1
  let init : ℝ × ℝ :=
    if loc0 < p.length ∧ (hc (n, 0)).isSome ∧ (cc (n, 0)).isSome then
      (p.getD loc0 0 * ((hc (n, 0)).getD (0, 0)).1,
       p.getD loc0 0 * ((cc (n, 0)).getD (0, 0)).1)
    else (0, 0)
  (List.range' 1 n).foldl (fun acc m =>
    let loc := n * (n + 1) / 2 + m + 1
    if loc < p.length ∧ m < cosml.length ∧ m < sinml.length ∧
        (hc (n, m)).isSome ∧ (cc (n, m)).isSome then
      ((acc.1 + p.getD loc 0 * (((hc (n, m)).getD (0, 0)).1 * cosml.getD m 0 +
          ((hc (n, m)).getD (0, 0)).2 * sinml.getD m 0)),
       (acc.2 + p.getD loc 0 * (((cc (n, m)).getD (0, 0)).1 * cosml.getD m 0 +
          ((cc (n, m)).getD (0, 0)).2 * sinml.getD m 0)))
    else acc) init

/-- The outer degree loop of `_hundu`: accumulates `(arn, ac, a)` over
degrees `2..nmax`. -/
def hunduLoop (ar : ℝ) (p sinml cosml : List ℝ) (hc cc : CoeffTable)
    (nmax : ℕ) : ℝ × ℝ × ℝ :=
  (List.range' 2 (nmax - 1)).foldl (fun acc n =>
    let arn := acc.1 * ar
    let sums := hunduInner p sinml cosml hc cc n
    (arn, acc.2.1 + sums.2, acc.2.2 + sums.1 * arn)) (ar, 0, 0)

/-- `_hundu` from geoidheight_fortran.py: returns `(undu, haco)`. -/
def hundu (nmax : ℕ) (p sinml cosml : List ℝ) (gr re : ℝ)
    (hc cc : CoeffTable) : ℝ × ℝ :=
  let ar := geoidAE / re
  let res := hunduLoop ar p sinml cosml hc cc nmax
  let a := res.2.2
  let ac := if 2 < p.length ∧ (cc (0, 0)).isSome ∧ (cc (1, 0)).isSome ∧
      (cc (1, 1)).isSome then
      res.2.1 + ((cc (0, 0)).getD (0, 0)).1 +
        p.getD 2 0 * ((cc (1, 0)).getD (0, 0)).1 +
        p.getD 3 0 * (((cc (1, 1)).getD (0, 0)).1 * cosml.getD 1 0 +
          ((cc (1, 1)).getD (0, 0)).2 * sinml.getD 1 0)
    else res.2.1
  let haco := ac / 100
  let undu := a * geoidGM / (gr * re)
  (undu + haco - 0.53, haco)

/-- Spec-side definition for C10: the harmonic potential sum — the
degree-by-degree sum of the potential-coefficient terms scaled by
`(AE/re)^n`, with the same array-bounds and key-presence guards as the
code (the all-zero correction table contributes exactly the in-range
condition `n ≤ 360`). -/
def potentialSum (nmax : ℕ) (p sinml cosml : List ℝ) (ar : ℝ)
    (hc : CoeffTable) : ℝ :=
  ((List.range' 2 (nmax - 1)).foldl (fun acc n =>
    let arn := acc.1 * ar
    let inner0 : ℝ :=
      if n * (n + 1) / 2 + 1 < p.length ∧ (hc (n, 0)).isSome ∧ n ≤ 360 then
        p.getD (n * (n + 1) / 2 + 1) 0 * ((hc (n, 0)).getD (0, 0)).1
      else 0
    let inner := (List.range' 1 n).foldl (fun sacc m =>
      if n * (n + 1) / 2 + m + 1 < p.length ∧ m < cosml.length ∧
          m < sinml.length ∧ (hc (n, m)).isSome ∧ n ≤ 360 then
        sacc + p.getD (n * (n + 1) / 2 + m + 1) 0 *
          (((hc (n, m)).getD (0, 0)).1 * cosml.getD m 0 +
            ((hc (n, m)).getD (0, 0)).2 * sinml.getD m 0)
      else sacc) inner0
    (arn, acc.2 + inner * arn)) ((ar : ℝ), (0 : ℝ))).2

/-! ## runwaykml.py: the per-record procedure builder -/

/-- One runway record (`row`) consumed by `makerunway_kml`; the NaN-able
displaced-threshold field is an `Option`. -/
structure RwRecord where
  hi_wgs_lat : ℝ
  hi_wgs_long : ℝ
  hi_elev : ℝ
  hi_disp_thld : Option ℝ
  hi_disp_thld_elev : ℝ
  hi_redux : ℝ
  lo_wgs_lat : ℝ
  lo_wgs_long : ℝ
  lo_elev : ℝ
  var : ℝ

/-- The per-batch parameters of `makerunway_kml` (GUI inputs). -/
structure RwParams where
  TD_dist_ft : ℝ
  STP_dist_ft : ℝ
  G_Slope : ℝ
  TP_Alt : ℝ
  RWY_W : ℝ
  GA_Spd : ℝ
  Dep_dist_nm : ℝ

/-- The derived per-record fields assembled by the `makerunway_kml` loop
body (the union of `manual_kwargs`, the tt80 DataFrame columns, and the
local `horizontal_distance_ft` of the approach-point computation). -/
structure RwFields where
  tp_alt : ℝ
  rw_brg_deg : ℝ
  rev_rw_brg_deg : ℝ
  rwy_hdg_tru : ℝ
  rwy_hdg_mag : ℝ
  rw_brg_rad : ℝ
  rev_rw_brg_rad : ℝ
  lo_lat : ℝ
  lo_long : ℝ
  rw_dist_ft : ℝ
  STP_points : ℝ × ℝ × ℝ
  dep_climb_angle_deg : ℝ
  DEP_points : ℝ × ℝ × ℝ
  stpt_lat : ℝ
  stpt_long : ℝ
  hi_disp_thld_ft : ℝ
  TD_points : ℝ × ℝ × ℝ
  app_horizontal_ft : ℝ
  APP_points : ℝ × ℝ × ℝ
  total_distance_m : ℝ
  total_distance_ft : ℝ
  rwy_slope_deg : ℝ
  tt80 : List PPoint
  emg96ft : List ℝ
  distance_from_start_ft : List ℝ
  ptEGM96 : List ℝ
  GSV_alt : ℝ
  runway_remaining : ℝ

/-- The result of the TT80 block (runwaykml.py lines 196-217, duplicated
verbatim at lines 239-260): profile, geoid columns and GSV. -/
structure TT80Out where
  total_distance_m : ℝ
  rwy_slope_deg : ℝ
  tt80 : List PPoint
  emg : List ℝ
  dft : List ℝ
  ptlist : List ℝ
  gsv : ℝ

/-- The TT80 block shared by the two displaced-threshold branches of
`makerunway_kml` (the source duplicates this code in both branches).
`g` is the `geoidheight` function, passed as a parameter. -/
def tt80_block (g : ℝ → ℝ → ℝ)
    (stpt_lat stpt_long stpt_a lo_lat lo_long lo_elev : ℝ) :
    Except String TT80Out :=
  match generate_equidistant_points stpt_lat stpt_long (stpt_a * 0.3408)
      lo_lat lo_long (lo_elev * 0.3408) 15 with
  | .error s => .error s
  | .ok gen =>
    let tt80df := gen.df
    let emg := tt80df.map (fun r => ((⌈m2f (g r.latitude r.longitude)⌉ : ℤ) : ℝ))
    let dft := tt80df.map (fun r => pyround (m2f r.distance_from_start_m) 0)
    let pt := List.zipWith (fun r e => m2f r.elevation_m - e) tt80df emg
    .ok ⟨gen.total_distance, radians_to_degrees gen.elevation_slope, tt80df,
         emg, dft, pt, emg.getD 6 0⟩

/-- The loop body of `makerunway_kml` (runwaykml.py lines 47-263) for one
record: all derived geometry for one runway.  `g` is the `geoidheight`
function; `fuel` bounds the uncapped direct-solver loop. -/
def makerunway_record (fuel : ℕ) (g : ℝ → ℝ → ℝ) (row : RwRecord)
    (P : RwParams) : Except String RwFields := do
  let hi_wgs_lat := row.hi_wgs_lat
  let hi_wgs_long := row.hi_wgs_long
  let hi_elev_ft := row.hi_elev
  let lo_elev_ft := row.lo_elev
  let TP_Alt : ℝ :=
    if hi_elev_ft > lo_elev_ft then ((⌈(hi_elev_ft + P.TP_Alt) / 100⌉ : ℤ) : ℝ) * 100
    else if lo_elev_ft > hi_elev_ft then ((⌈(lo_elev_ft + P.TP_Alt) / 100⌉ : ℤ) : ℝ) * 100
    else P.TP_Alt
  let brg ← distanceF (hi_wgs_lat, hi_wgs_long) (row.lo_wgs_lat, row.lo_wgs_long)
    "WGS84" .great_circle false
  let rw_brg_deg := brg.1
  let rev_rw_brg_deg := pymod (rw_brg_deg - 180) 360
  let mag_var := row.var
  let rwy_hdg_tru := pymod rw_brg_deg 360
  let rwy_hdg_mag := pymod (rw_brg_deg - mag_var) 360
  let rw_brg_rad := pymod (degrees_to_radians rw_brg_deg) (2 * π)
  let rev_rw_brg_rad := rw_brg_rad - pymod π (2 * π)
  let lo_pair ← if row.hi_redux ≠ 0 then do
      let mod_endpts ← generate_wgs84_coordinate fuel row.lo_wgs_lat
        row.lo_wgs_long lo_elev_ft rev_rw_brg_deg (f2m row.hi_redux) .great_circle
      pure (mod_endpts.1, mod_endpts.2.1)
    else pure (row.lo_wgs_lat, row.lo_wgs_long)
  let lo_wgs_lat := lo_pair.1
  let lo_wgs_long := lo_pair.2
  let values ← distanceF (hi_wgs_lat, hi_wgs_long) (lo_wgs_lat, lo_wgs_long)
    "WGS84" .great_circle false
  let rw_dist_ft := m2f values.2
  let STP_points ← generate_wgs84_coordinate fuel lo_wgs_lat lo_wgs_long
    lo_elev_ft rev_rw_brg_deg (f2m P.STP_dist_ft) .great_circle
  let distance_ft := nm2f P.Dep_dist_nm
  let dep_climb_angle_rad := arctan (P.TP_Alt / distance_ft)
  let dep_climb_angle_deg := radians_to_degrees dep_climb_angle_rad
  let dep_horizontal_distance_ft := P.TP_Alt / tan dep_climb_angle_rad
  let DEP_points ← generate_wgs84_coordinate fuel lo_wgs_lat lo_wgs_long
    lo_elev_ft rw_brg_deg (f2m dep_horizontal_distance_ft) .great_circle
  match row.hi_disp_thld with
  | none => do
    let stpt_lat := hi_wgs_lat
    let stpt_long := hi_wgs_long
    let TD_points ← generate_wgs84_coordinate fuel stpt_lat stpt_long
      hi_elev_ft rw_brg_deg (f2m P.TD_dist_ft) .great_circle
    let climb_angle_rad := degrees_to_radians P.G_Slope
    let horizontal_distance_ft := P.TP_Alt / tan climb_angle_rad
    let APP_points ← generate_wgs84_coordinate fuel stpt_lat stpt_long
      hi_elev_ft rev_rw_brg_deg (f2m horizontal_distance_ft) .great_circle
    let tb ← tt80_block g stpt_lat stpt_long hi_elev_ft lo_wgs_lat lo_wgs_long
      row.lo_elev
    pure ⟨TP_Alt, rw_brg_deg, rev_rw_brg_deg, rwy_hdg_tru, rwy_hdg_mag,
      rw_brg_rad, rev_rw_brg_rad, lo_wgs_lat, lo_wgs_long, rw_dist_ft,
      STP_points, dep_climb_angle_deg, DEP_points, stpt_lat, stpt_long, 0,
      TD_points, horizontal_distance_ft, APP_points, tb.total_distance_m,
      m2f tb.total_distance_m, tb.rwy_slope_deg, tb.tt80, tb.emg, tb.dft,
      tb.ptlist, tb.gsv,
      m2f tb.total_distance_m - P.TD_dist_ft - P.STP_dist_ft⟩
  | some dt => do
    let sp := calculate_destination_point hi_wgs_lat hi_wgs_long rw_brg_rad (f2m dt)
    let stpt_lat := sp.1
    let stpt_long := sp.2
    let TD_points ← generate_wgs84_coordinate fuel stpt_lat stpt_long
      hi_elev_ft rw_brg_deg (f2m P.TD_dist_ft) .great_circle
    let climb_angle_rad := degrees_to_radians P.G_Slope
    let horizontal_distance_ft := P.TP_Alt / tan climb_angle_rad
    let APP_points ← generate_wgs84_coordinate fuel stpt_lat stpt_long
      hi_elev_ft rev_rw_brg_deg (f2m horizontal_distance_ft) .great_circle
    let tb ← tt80_block g stpt_lat stpt_long row.hi_disp_thld_elev lo_wgs_lat
      lo_wgs_long row.lo_elev
    pure ⟨TP_Alt, rw_brg_deg, rev_rw_brg_deg, rwy_hdg_tru, rwy_hdg_mag,
      rw_brg_rad, rev_rw_brg_rad, lo_wgs_lat, lo_wgs_long, rw_dist_ft,
      STP_points, dep_climb_angle_deg, DEP_points, stpt_lat, stpt_long, dt,
      TD_points, horizontal_distance_ft, APP_points, tb.total_distance_m,
      m2f tb.total_distance_m, tb.rwy_slope_deg, tb.tt80, tb.emg, tb.dft,
      tb.ptlist, tb.gsv,
      m2f tb.total_distance_m - P.TD_dist_ft - P.STP_dist_ft⟩

/-! ## Derived definitions used by the profile and geoid lemmas -/

/-- The raw `points` list built inside `generate_equidistant_points`
(before the DataFrame rounding), as a function of the returned total
distance. -/
def profileRaw (lat1 lon1 elev1 lat2 lon2 elev2 total : ℝ) (n : ℕ) :
    List PPoint :=
  let initial_bearing := calculate_initial_bearing lat1 lon1 lat2 lon2
  let elevation_slope := calculate_elevation_slope elev1 elev2 total
  let distance_interval := total / ((n : ℝ) + 1)
  (⟨0, "Rwy_Start", lat1, lon1, elev1, 0⟩ : PPoint) ::
    (List.range' 1 n).map (fun (i : ℕ) =>
      let distance_from_start := distance_interval * (i : ℝ)
      let ll := calculate_destination_point lat1 lon1 initial_bearing
        distance_from_start
      (⟨i, "TT80_pt_" ++ toString i, ll.1, ll.2,
        interpolate_elevation elev1 elevation_slope distance_from_start,
        distance_from_start⟩ : PPoint)) ++
    [⟨n + 1, "Rwy_End", lat2, lon2, elev2, total⟩]

/-- The inner potential sum of one degree `n` (the `m`-loop of `_hundu`
restricted to the potential coefficients). -/
def innerPot (p sinml cosml : List ℝ) (hc : CoeffTable) (n : ℕ) : ℝ :=
  (List.range' 1 n).foldl (fun sacc m =>
    if n * (n + 1) / 2 + m + 1 < p.length ∧ m < cosml.length ∧
        m < sinml.length ∧ (hc (n, m)).isSome ∧ n ≤ 360 then
      sacc + p.getD (n * (n + 1) / 2 + m + 1) 0 *
        (((hc (n, m)).getD (0, 0)).1 * cosml.getD m 0 +
          ((hc (n, m)).getD (0, 0)).2 * sinml.getD m 0)
    else sacc)
    (if n * (n + 1) / 2 + 1 < p.length ∧ (hc (n, 0)).isSome ∧ n ≤ 360 then
      p.getD (n * (n + 1) / 2 + 1) 0 * ((hc (n, 0)).getD (0, 0)).1
    else 0)

/-- The degree-loop step of `_hundu` with the all-zero correction table. -/
def hStepD (p sinml cosml : List ℝ) (hc : CoeffTable) (ar : ℝ)
    (acc : ℝ × ℝ × ℝ) (n : ℕ) : ℝ × ℝ × ℝ :=
  (acc.1 * ar, acc.2.1 + (hunduInner p sinml cosml hc geoidInitCC n).2,
   acc.2.2 + (hunduInner p sinml cosml hc geoidInitCC n).1 * (acc.1 * ar))

/-- The degree-loop step of the potential sum. -/
def pStepD (p sinml cosml : List ℝ) (hc : CoeffTable) (ar : ℝ)
    (acc : ℝ × ℝ) (n : ℕ) : ℝ × ℝ :=
  (acc.1 * ar, acc.2 + innerPot p sinml cosml hc n * (acc.1 * ar))

lemma pymod_eq_fract (x : ℝ) {y : ℝ} (hy : y ≠ 0) :
    pymod x y = y * Int.fract (x / y) := by
  unfold pymod
  rw [Int.fract, mul_sub, mul_div_cancel₀ x hy]

lemma pymod_nonneg (x : ℝ) {y : ℝ} (hy : 0 < y) : 0 ≤ pymod x y := by
  rw [pymod_eq_fract x hy.ne']
  exact mul_nonneg hy.le (Int.fract_nonneg _)

lemma pymod_lt (x : ℝ) {y : ℝ} (hy : 0 < y) : pymod x y < y := by
  rw [pymod_eq_fract x hy.ne']
  calc y * Int.fract (x / y) < y * 1 := by
        exact mul_lt_mul_of_pos_left (Int.fract_lt_one _) hy
    _ = y := mul_one y

lemma pymod_self (y : ℝ) : pymod y y = 0 := by
  unfold pymod
  rcases eq_or_ne y 0 with h | h
  · simp [h]
  · rw [div_self h]
    simp

lemma pymod_of_nonneg_of_lt {x y : ℝ} (h0 : 0 ≤ x) (hxy : x < y) :
    pymod x y = x := by
  have hy : 0 < y := lt_of_le_of_lt h0 hxy
  have : ⌊x / y⌋ = 0 := by
    rw [Int.floor_eq_zero_iff]
    constructor
    · exact div_nonneg h0 hy.le
    · rw [div_lt_one hy]; exact hxy
  unfold pymod
  rw [this]
  simp

lemma atan2_of_pos_x (y : ℝ) {x : ℝ} (hx : 0 < x) : atan2 y x = arctan (y / x) := by
  unfold atan2
  rw [if_pos hx]

lemma atan2_zero_pos {x : ℝ} (hx : 0 < x) : atan2 0 x = 0 := by
  rw [atan2_of_pos_x 0 hx, zero_div, arctan_zero]

lemma atan2_pos_zero {y : ℝ} (hy : 0 < y) : atan2 y 0 = π / 2 := by
  unfold atan2
  rw [if_neg (lt_irrefl 0), if_neg (lt_irrefl 0), if_pos hy]

lemma atan2_zero_neg {x : ℝ} (hx : x < 0) : atan2 0 x = π := by
  unfold atan2
  rw [if_neg (by linarith), if_pos hx, if_pos le_rfl, zero_div, arctan_zero, zero_add]

/-- On `(0, π)`, `atan2 (sin θ) (cos θ)` recovers `θ`. -/
lemma atan2_sin_cos {θ : ℝ} (h1 : 0 < θ) (h2 : θ < π) :
    atan2 (sin θ) (cos θ) = θ := by
  rcases lt_trichotomy θ (π / 2) with hlt | heq | hgt
  · have hc : 0 < cos θ := cos_pos_of_mem_Ioo ⟨by linarith [pi_pos], hlt⟩
    rw [atan2_of_pos_x _ hc, ← tan_eq_sin_div_cos, arctan_tan (by linarith [pi_pos]) hlt]
  · subst heq
    rw [cos_pi_div_two, sin_pi_div_two, atan2_pos_zero one_pos]
  · have hc : cos θ < 0 := by
      apply cos_neg_of_pi_div_two_lt_of_lt hgt
      linarith [pi_pos]
    have hs : 0 ≤ sin θ := (sin_pos_of_pos_of_lt_pi h1 h2).le
    unfold atan2
    rw [if_neg (by linarith), if_pos hc, if_pos hs, ← tan_eq_sin_div_cos]
    have hper : tan (θ - π) = tan θ := tan_periodic.sub_eq θ
    rw [← hper, arctan_tan (by linarith) (by linarith [pi_pos])]
    ring

lemma rhe_int (n : ℤ) : rhe (n : ℝ) = n := by
  unfold rhe
  rw [if_neg]
  · exact round_intCast n
  · rintro ⟨hf, _⟩
    rw [Int.fract_intCast] at hf
    norm_num at hf

/-- Banker's rounding moves a real by at most one half. -/
lemma abs_rhe_sub (x : ℝ) : |(rhe x : ℝ) - x| ≤ 1 / 2 := by
  unfold rhe
  split_ifs with h
  · obtain ⟨hf, _⟩ := h
    have hx : x = (⌊x⌋ : ℝ) + 1 / 2 := by
      have := Int.fract_add_floor x
      rw [hf] at this
      linarith
    have hr : round x = ⌊x⌋ + 1 := by
      have h2 : x + 1 / 2 = ((⌊x⌋ + 1 : ℤ) : ℝ) := by push_cast; linarith
      rw [round_eq, h2, Int.floor_intCast]
    rw [hr]
    push_cast
    rw [abs_le]
    constructor <;> linarith
  · have := abs_sub_round x
    rw [abs_sub_comm] at this
    exact this

lemma abs_pyround_sub (x : ℝ) (n : ℕ) :
    |pyround x n - x| ≤ 1 / 2 / 10 ^ n := by
  unfold pyround
  have h10 : (0 : ℝ) < 10 ^ n := by positivity
  have := abs_rhe_sub (x * 10 ^ n)
  have key : (rhe (x * 10 ^ n) : ℝ) / 10 ^ n - x =
      ((rhe (x * 10 ^ n) : ℝ) - x * 10 ^ n) / 10 ^ n := by
    rw [sub_div]
    congr 1
    rw [mul_div_assoc, div_self (ne_of_gt h10), mul_one]
  rw [key, abs_div, abs_of_pos h10]
  gcongr

/-- Rounding an integer multiple of `10 ^ (-n)` is the identity; stated for
the integer itself scaled appropriately. -/
lemma pyround_of_int_mul {x : ℝ} {n : ℕ} {k : ℤ} (h : x * 10 ^ n = (k : ℝ)) :
    pyround x n = x := by
  unfold pyround
  rw [h, rhe_int]
  have h10 : (10 : ℝ) ^ n ≠ 0 := by positivity
  rw [← h]
  field_simp

/-! ## Termination of the `_vincenty_direct` correction loop

The correction `dsig B sigma1` is bounded by `0.0017` and is Lipschitz
with constant `0.0034` in `sigma` whenever `0 ≤ B ≤ 0.00169` (which holds
for every real input on WGS84), so the fixed-point iteration contracts and
the loop converges to the `1e-12` tolerance within 5 iterations. -/

lemma abs_sin_sub_le (x y : ℝ) : |sin x - sin y| ≤ |x - y| := by
  rw [Real.sin_sub_sin]
  have h1 : |sin ((x - y) / 2)| ≤ |(x - y) / 2| := abs_sin_le_abs
  have h2 : |cos ((x + y) / 2)| ≤ 1 := abs_cos_le_one _
  calc |2 * sin ((x - y) / 2) * cos ((x + y) / 2)|
      = 2 * |sin ((x - y) / 2)| * |cos ((x + y) / 2)| := by
        rw [abs_mul, abs_mul, abs_two]
    _ ≤ 2 * |(x - y) / 2| * 1 := by
        apply mul_le_mul _ h2 (abs_nonneg _) (by positivity)
        exact mul_le_mul_of_nonneg_left h1 (by norm_num)
    _ = |x - y| := by
        rw [abs_div, abs_two, mul_one]
        ring

lemma abs_cos_sub_le (x y : ℝ) : |cos x - cos y| ≤ |x - y| := by
  rw [Real.cos_sub_cos]
  have h1 : |sin ((x - y) / 2)| ≤ |(x - y) / 2| := abs_sin_le_abs
  have h2 : |sin ((x + y) / 2)| ≤ 1 := abs_sin_le_one _
  calc |-2 * sin ((x + y) / 2) * sin ((x - y) / 2)|
      = 2 * |sin ((x + y) / 2)| * |sin ((x - y) / 2)| := by
        rw [abs_mul, abs_mul]
        norm_num
    _ ≤ 2 * 1 * |(x - y) / 2| := by
        apply mul_le_mul _ h1 (abs_nonneg _) (by positivity)
        exact mul_le_mul_of_nonneg_left h2 (by norm_num)
    _ = |x - y| := by
        rw [abs_div, abs_two]
        ring

lemma dsig_abs_le {B : ℝ} (sigma1 sigma : ℝ) (hB0 : 0 ≤ B)
    (hB : B ≤ 0.00169) : |dsig B sigma1 sigma| ≤ 0.0017 := by
  unfold dsig
  set m := cos (2 * sigma1 + sigma) with hm_def
  set s := sin sigma with hs_def
  set c := cos sigma with hc_def
  have hm : |m| ≤ 1 := abs_cos_le_one _
  have hs : |s| ≤ 1 := abs_sin_le_one _
  have hc : |c| ≤ 1 := abs_cos_le_one _
  have hg : |(-1 : ℝ) + 2 * m ^ 2| ≤ 1 := by
    rw [abs_le]
    have := sq_nonneg m
    have h2 : m ^ 2 ≤ 1 := by
      have := abs_le.mp hm
      nlinarith
    constructor <;> nlinarith
  have hh : |(-3 : ℝ) + 4 * s ^ 2| ≤ 3 := by
    rw [abs_le]
    have := sq_nonneg s
    have h2 : s ^ 2 ≤ 1 := by
      have := abs_le.mp hs
      nlinarith
    constructor <;> nlinarith
  have hj : |(-3 : ℝ) + 4 * m ^ 2| ≤ 3 := by
    rw [abs_le]
    have := sq_nonneg m
    have h2 : m ^ 2 ≤ 1 := by
      have := abs_le.mp hm
      nlinarith
    constructor <;> nlinarith
  have hE : |m + B / 4 * (c * (-1 + 2 * m ^ 2) -
      B / 6 * m * (-3 + 4 * s ^ 2) * (-3 + 4 * m ^ 2))| ≤
      1 + B / 4 * (1 + B / 6 * 3 * 3) := by
    have t1 : |c * (-1 + 2 * m ^ 2)| ≤ 1 := by
      rw [abs_mul]
      calc |c| * |(-1 : ℝ) + 2 * m ^ 2| ≤ 1 * 1 :=
        mul_le_mul hc hg (abs_nonneg _) zero_le_one
      _ = 1 := one_mul 1
    have t2 : |B / 6 * m * (-3 + 4 * s ^ 2) * (-3 + 4 * m ^ 2)| ≤
        B / 6 * 3 * 3 := by
      rw [abs_mul, abs_mul, abs_mul]
      have hB6 : |B / 6| = B / 6 := abs_of_nonneg (by linarith)
      rw [hB6]
      calc B / 6 * |m| * |(-3 : ℝ) + 4 * s ^ 2| * |(-3 : ℝ) + 4 * m ^ 2|
          ≤ B / 6 * 1 * 3 * 3 := by
            apply mul_le_mul _ hj (abs_nonneg _) (by positivity)
            apply mul_le_mul _ hh (abs_nonneg _) (by positivity)
            exact mul_le_mul_of_nonneg_left hm (by linarith)
        _ = B / 6 * 3 * 3 := by ring
    calc |m + B / 4 * (c * (-1 + 2 * m ^ 2) -
        B / 6 * m * (-3 + 4 * s ^ 2) * (-3 + 4 * m ^ 2))|
        ≤ |m| + |B / 4| * |c * (-1 + 2 * m ^ 2) -
            B / 6 * m * (-3 + 4 * s ^ 2) * (-3 + 4 * m ^ 2)| := by
          rw [← abs_mul]
          exact abs_add _ _
      _ ≤ 1 + B / 4 * (1 + B / 6 * 3 * 3) := by
          have habs : |B / 4| = B / 4 := abs_of_nonneg (by linarith)
          rw [habs]
          have hsub : |c * (-1 + 2 * m ^ 2) -
              B / 6 * m * (-3 + 4 * s ^ 2) * (-3 + 4 * m ^ 2)| ≤
              1 + B / 6 * 3 * 3 := by
            calc |c * (-1 + 2 * m ^ 2) -
                B / 6 * m * (-3 + 4 * s ^ 2) * (-3 + 4 * m ^ 2)|
                ≤ |c * (-1 + 2 * m ^ 2)| +
                  |B / 6 * m * (-3 + 4 * s ^ 2) * (-3 + 4 * m ^ 2)| :=
                  abs_sub _ _
              _ ≤ 1 + B / 6 * 3 * 3 := add_le_add t1 t2
          have := mul_le_mul_of_nonneg_left hsub (show (0 : ℝ) ≤ B / 4 by linarith)
          linarith [hm]
  calc |B * s * (m + B / 4 * (c * (-1 + 2 * m ^ 2) -
      B / 6 * m * (-3 + 4 * s ^ 2) * (-3 + 4 * m ^ 2)))|
      = |B| * |s| * |m + B / 4 * (c * (-1 + 2 * m ^ 2) -
          B / 6 * m * (-3 + 4 * s ^ 2) * (-3 + 4 * m ^ 2))| := by
        rw [abs_mul, abs_mul]
    _ ≤ B * 1 * (1 + B / 4 * (1 + B / 6 * 3 * 3)) := by
        rw [abs_of_nonneg hB0]
        apply mul_le_mul _ hE (abs_nonneg _) (by positivity)
        exact mul_le_mul_of_nonneg_left hs hB0
    _ ≤ 0.0017 := by
        have h2 : B ^ 2 ≤ 0.00169 ^ 2 := by nlinarith
        have h3 : B ^ 3 ≤ 0.00169 * B ^ 2 := by nlinarith [sq_nonneg B]
        nlinarith [h2, h3]

lemma abs_mul_sub (a a' b b' : ℝ) :
    |a * b - a' * b'| ≤ |a - a'| * |b| + |a'| * |b - b'| := by
  have h : a * b - a' * b' = (a - a') * b + a' * (b - b') := by ring
  rw [h]
  calc |(a - a') * b + a' * (b - b')| ≤ |(a - a') * b| + |a' * (b - b')| :=
        abs_add _ _
    _ = |a - a'| * |b| + |a'| * |b - b'| := by rw [abs_mul, abs_mul]

set_option maxHeartbeats 1600000 in
lemma dsig_diff_core (B mx my sx sy cx cy d : ℝ) (hB0 : 0 ≤ B)
    (hB : B ≤ 0.00169) (hd0 : 0 ≤ d)
    (hmx : |mx| ≤ 1) (hmy : |my| ≤ 1) (hsx : |sx| ≤ 1) (hsy : |sy| ≤ 1)
    (hcx : |cx| ≤ 1) (hcy : |cy| ≤ 1)
    (dmd : |mx - my| ≤ d) (dsd : |sx - sy| ≤ d) (dcd : |cx - cy| ≤ d) :
    |B * sx * (mx + B / 4 * (cx * (-1 + 2 * mx ^ 2) -
        B / 6 * mx * (-3 + 4 * sx ^ 2) * (-3 + 4 * mx ^ 2))) -
      B * sy * (my + B / 4 * (cy * (-1 + 2 * my ^ 2) -
        B / 6 * my * (-3 + 4 * sy ^ 2) * (-3 + 4 * my ^ 2)))| ≤ 0.0034 * d := by
  have hgx : |(-1 : ℝ) + 2 * mx ^ 2| ≤ 1 := by
    rw [abs_le]
    have h1 := abs_le.mp hmx
    have := sq_nonneg mx
    constructor <;> nlinarith
  have hhx : |(-3 : ℝ) + 4 * sx ^ 2| ≤ 3 := by
    rw [abs_le]
    have h1 := abs_le.mp hsx
    have := sq_nonneg sx
    constructor <;> nlinarith
  have hhy : |(-3 : ℝ) + 4 * sy ^ 2| ≤ 3 := by
    rw [abs_le]
    have h1 := abs_le.mp hsy
    have := sq_nonneg sy
    constructor <;> nlinarith
  have hjx : |(-3 : ℝ) + 4 * mx ^ 2| ≤ 3 := by
    rw [abs_le]
    have h1 := abs_le.mp hmx
    have := sq_nonneg mx
    constructor <;> nlinarith
  have hjy : |(-3 : ℝ) + 4 * my ^ 2| ≤ 3 := by
    rw [abs_le]
    have h1 := abs_le.mp hmy
    have := sq_nonneg my
    constructor <;> nlinarith
  have dgd : |(-1 + 2 * mx ^ 2) - (-1 + 2 * my ^ 2)| ≤ 4 * d := by
    have key : (-1 + 2 * mx ^ 2) - (-1 + 2 * my ^ 2) =
        2 * (mx - my) * (mx + my) := by ring
    rw [key, abs_mul, abs_mul, abs_two]
    have h1 : |mx + my| ≤ 2 := by
      calc |mx + my| ≤ |mx| + |my| := abs_add _ _
        _ ≤ 2 := by linarith
    calc 2 * |mx - my| * |mx + my| ≤ 2 * d * 2 := by
          apply mul_le_mul _ h1 (abs_nonneg _) (by positivity)
          exact mul_le_mul_of_nonneg_left dmd (by norm_num)
      _ = 4 * d := by ring
  have dhd : |(-3 + 4 * sx ^ 2) - (-3 + 4 * sy ^ 2)| ≤ 8 * d := by
    have key : (-3 + 4 * sx ^ 2) - (-3 + 4 * sy ^ 2) =
        4 * (sx - sy) * (sx + sy) := by ring
    rw [key, abs_mul, abs_mul]
    have h1 : |sx + sy| ≤ 2 := by
      calc |sx + sy| ≤ |sx| + |sy| := abs_add _ _
        _ ≤ 2 := by linarith
    have h4 : |(4 : ℝ)| = 4 := by norm_num
    rw [h4]
    calc 4 * |sx - sy| * |sx + sy| ≤ 4 * d * 2 := by
          apply mul_le_mul _ h1 (abs_nonneg _) (by positivity)
          exact mul_le_mul_of_nonneg_left dsd (by norm_num)
      _ = 8 * d := by ring
  have djd : |(-3 + 4 * mx ^ 2) - (-3 + 4 * my ^ 2)| ≤ 8 * d := by
    have key : (-3 + 4 * mx ^ 2) - (-3 + 4 * my ^ 2) =
        4 * (mx - my) * (mx + my) := by ring
    rw [key, abs_mul, abs_mul]
    have h1 : |mx + my| ≤ 2 := by
      calc |mx + my| ≤ |mx| + |my| := abs_add _ _
        _ ≤ 2 := by linarith
    have h4 : |(4 : ℝ)| = 4 := by norm_num
    rw [h4]
    calc 4 * |mx - my| * |mx + my| ≤ 4 * d * 2 := by
          apply mul_le_mul _ h1 (abs_nonneg _) (by positivity)
          exact mul_le_mul_of_nonneg_left dmd (by norm_num)
      _ = 8 * d := by ring
  have dcg : |cx * (-1 + 2 * mx ^ 2) - cy * (-1 + 2 * my ^ 2)| ≤ 5 * d := by
    have h := abs_mul_sub cx cy (-1 + 2 * mx ^ 2) (-1 + 2 * my ^ 2)
    have t1 : |cx - cy| * |(-1 : ℝ) + 2 * mx ^ 2| ≤ d * 1 :=
      mul_le_mul dcd hgx (abs_nonneg _) hd0
    have t2 : |cy| * |(-1 + 2 * mx ^ 2) - (-1 + 2 * my ^ 2)| ≤ 1 * (4 * d) :=
      mul_le_mul hcy dgd (abs_nonneg _) zero_le_one
    linarith
  have hmh : |mx * (-3 + 4 * sx ^ 2) - my * (-3 + 4 * sy ^ 2)| ≤ 11 * d := by
    have h := abs_mul_sub mx my (-3 + 4 * sx ^ 2) (-3 + 4 * sy ^ 2)
    have t1 : |mx - my| * |(-3 : ℝ) + 4 * sx ^ 2| ≤ d * 3 :=
      mul_le_mul dmd hhx (abs_nonneg _) hd0
    have t2 : |my| * |(-3 + 4 * sx ^ 2) - (-3 + 4 * sy ^ 2)| ≤ 1 * (8 * d) :=
      mul_le_mul hmy dhd (abs_nonneg _) zero_le_one
    linarith
  have hmh_bound : |my * (-3 + 4 * sy ^ 2)| ≤ 3 := by
    rw [abs_mul]
    calc |my| * |(-3 : ℝ) + 4 * sy ^ 2| ≤ 1 * 3 :=
          mul_le_mul hmy hhy (abs_nonneg _) zero_le_one
      _ = 3 := one_mul 3
  have dmhj : |mx * (-3 + 4 * sx ^ 2) * (-3 + 4 * mx ^ 2) -
      my * (-3 + 4 * sy ^ 2) * (-3 + 4 * my ^ 2)| ≤ 57 * d := by
    have h := abs_mul_sub (mx * (-3 + 4 * sx ^ 2)) (my * (-3 + 4 * sy ^ 2))
      (-3 + 4 * mx ^ 2) (-3 + 4 * my ^ 2)
    have t1 : |mx * (-3 + 4 * sx ^ 2) - my * (-3 + 4 * sy ^ 2)| *
        |(-3 : ℝ) + 4 * mx ^ 2| ≤ 11 * d * 3 :=
      mul_le_mul hmh hjx (abs_nonneg _) (by positivity)
    have t2 : |my * (-3 + 4 * sy ^ 2)| *
        |(-3 + 4 * mx ^ 2) - (-3 + 4 * my ^ 2)| ≤ 3 * (8 * d) :=
      mul_le_mul hmh_bound djd (abs_nonneg _) (by norm_num)
    linarith
  set Ex := mx + B / 4 * (cx * (-1 + 2 * mx ^ 2) -
      B / 6 * mx * (-3 + 4 * sx ^ 2) * (-3 + 4 * mx ^ 2)) with hEx_def
  set Ey := my + B / 4 * (cy * (-1 + 2 * my ^ 2) -
      B / 6 * my * (-3 + 4 * sy ^ 2) * (-3 + 4 * my ^ 2)) with hEy_def
  have dE : |Ex - Ey| ≤ (1 + 5 * B / 4 + 57 * B ^ 2 / 24) * d := by
    have key : Ex - Ey =
        (mx - my) + B / 4 * ((cx * (-1 + 2 * mx ^ 2) - cy * (-1 + 2 * my ^ 2)) -
          B / 6 * (mx * (-3 + 4 * sx ^ 2) * (-3 + 4 * mx ^ 2) -
            my * (-3 + 4 * sy ^ 2) * (-3 + 4 * my ^ 2))) := by
      rw [hEx_def, hEy_def]; ring
    rw [key]
    have step1 : |(cx * (-1 + 2 * mx ^ 2) - cy * (-1 + 2 * my ^ 2)) -
        B / 6 * (mx * (-3 + 4 * sx ^ 2) * (-3 + 4 * mx ^ 2) -
          my * (-3 + 4 * sy ^ 2) * (-3 + 4 * my ^ 2))| ≤
        5 * d + B / 6 * (57 * d) := by
      have habs : |(cx * (-1 + 2 * mx ^ 2) - cy * (-1 + 2 * my ^ 2)) -
          B / 6 * (mx * (-3 + 4 * sx ^ 2) * (-3 + 4 * mx ^ 2) -
            my * (-3 + 4 * sy ^ 2) * (-3 + 4 * my ^ 2))| ≤
          |cx * (-1 + 2 * mx ^ 2) - cy * (-1 + 2 * my ^ 2)| +
          |B / 6| * |mx * (-3 + 4 * sx ^ 2) * (-3 + 4 * mx ^ 2) -
            my * (-3 + 4 * sy ^ 2) * (-3 + 4 * my ^ 2)| := by
        rw [← abs_mul]
        exact abs_sub _ _
      have hB6 : |B / 6| = B / 6 := abs_of_nonneg (by linarith)
      rw [hB6] at habs
      have := mul_le_mul_of_nonneg_left dmhj (show (0 : ℝ) ≤ B / 6 by linarith)
      linarith
    have habs2 : |(mx - my) + B / 4 * ((cx * (-1 + 2 * mx ^ 2) -
        cy * (-1 + 2 * my ^ 2)) -
        B / 6 * (mx * (-3 + 4 * sx ^ 2) * (-3 + 4 * mx ^ 2) -
          my * (-3 + 4 * sy ^ 2) * (-3 + 4 * my ^ 2)))| ≤
        |mx - my| + |B / 4| * |(cx * (-1 + 2 * mx ^ 2) - cy * (-1 + 2 * my ^ 2)) -
          B / 6 * (mx * (-3 + 4 * sx ^ 2) * (-3 + 4 * mx ^ 2) -
            my * (-3 + 4 * sy ^ 2) * (-3 + 4 * my ^ 2))| := by
      rw [← abs_mul]
      exact abs_add _ _
    have hB4 : |B / 4| = B / 4 := abs_of_nonneg (by linarith)
    rw [hB4] at habs2
    have hmul := mul_le_mul_of_nonneg_left step1 (show (0 : ℝ) ≤ B / 4 by linarith)
    nlinarith [dmd]
  have hExb : |Ex| ≤ 1 + B / 4 + 3 * B ^ 2 / 8 := by
    have t1 : |cx * (-1 + 2 * mx ^ 2)| ≤ 1 := by
      rw [abs_mul]
      calc |cx| * |(-1 : ℝ) + 2 * mx ^ 2| ≤ 1 * 1 :=
            mul_le_mul hcx hgx (abs_nonneg _) zero_le_one
        _ = 1 := one_mul 1
    have t2 : |B / 6 * mx * (-3 + 4 * sx ^ 2) * (-3 + 4 * mx ^ 2)| ≤
        B / 6 * 3 * 3 := by
      rw [abs_mul, abs_mul, abs_mul]
      have hB6 : |B / 6| = B / 6 := abs_of_nonneg (by linarith)
      rw [hB6]
      calc B / 6 * |mx| * |(-3 : ℝ) + 4 * sx ^ 2| * |(-3 : ℝ) + 4 * mx ^ 2|
          ≤ B / 6 * 1 * 3 * 3 := by
            apply mul_le_mul _ hjx (abs_nonneg _) (by positivity)
            apply mul_le_mul _ hhx (abs_nonneg _) (by positivity)
            exact mul_le_mul_of_nonneg_left hmx (by linarith)
        _ = B / 6 * 3 * 3 := by ring
    have habs : |Ex| ≤ |mx| + |B / 4| * |cx * (-1 + 2 * mx ^ 2) -
        B / 6 * mx * (-3 + 4 * sx ^ 2) * (-3 + 4 * mx ^ 2)| := by
      rw [hEx_def, ← abs_mul]
      exact abs_add _ _
    have hB4 : |B / 4| = B / 4 := abs_of_nonneg (by linarith)
    rw [hB4] at habs
    have hsub : |cx * (-1 + 2 * mx ^ 2) -
        B / 6 * mx * (-3 + 4 * sx ^ 2) * (-3 + 4 * mx ^ 2)| ≤
        1 + B / 6 * 3 * 3 := by
      calc |cx * (-1 + 2 * mx ^ 2) -
          B / 6 * mx * (-3 + 4 * sx ^ 2) * (-3 + 4 * mx ^ 2)|
          ≤ |cx * (-1 + 2 * mx ^ 2)| +
            |B / 6 * mx * (-3 + 4 * sx ^ 2) * (-3 + 4 * mx ^ 2)| := abs_sub _ _
        _ ≤ 1 + B / 6 * 3 * 3 := add_le_add t1 t2
    have := mul_le_mul_of_nonneg_left hsub (show (0 : ℝ) ≤ B / 4 by linarith)
    nlinarith [hmx]
  have key2 : B * sx * Ex - B * sy * Ey = B * (sx * Ex - sy * Ey) := by ring
  rw [key2, abs_mul, abs_of_nonneg hB0]
  have hprod := abs_mul_sub sx sy Ex Ey
  have t1 : |sx - sy| * |Ex| ≤ d * (1 + B / 4 + 3 * B ^ 2 / 8) :=
    mul_le_mul dsd hExb (abs_nonneg _) hd0
  have t2 : |sy| * |Ex - Ey| ≤ 1 * ((1 + 5 * B / 4 + 57 * B ^ 2 / 24) * d) :=
    mul_le_mul hsy dE (abs_nonneg _) zero_le_one
  have hfac : B * (d * (1 + B / 4 + 3 * B ^ 2 / 8) +
      1 * ((1 + 5 * B / 4 + 57 * B ^ 2 / 24) * d)) ≤ 0.0034 * d := by
    have h2 : B ^ 2 ≤ 0.00169 ^ 2 := by nlinarith
    have h3 : B ^ 3 ≤ 0.00169 * B ^ 2 := by nlinarith [sq_nonneg B]
    nlinarith [mul_le_mul_of_nonneg_left h2 hd0, mul_le_mul_of_nonneg_left h3 hd0,
      mul_le_mul_of_nonneg_right hB hd0, sq_nonneg B, hd0]
  calc B * |sx * Ex - sy * Ey|
      ≤ B * (d * (1 + B / 4 + 3 * B ^ 2 / 8) +
        1 * ((1 + 5 * B / 4 + 57 * B ^ 2 / 24) * d)) := by
        apply mul_le_mul_of_nonneg_left _ hB0
        calc |sx * Ex - sy * Ey|
            ≤ |sx - sy| * |Ex| + |sy| * |Ex - Ey| := hprod
          _ ≤ d * (1 + B / 4 + 3 * B ^ 2 / 8) +
              1 * ((1 + 5 * B / 4 + 57 * B ^ 2 / 24) * d) := add_le_add t1 t2
    _ ≤ 0.0034 * d := hfac

set_option maxHeartbeats 1600000 in
lemma dsig_lipschitz {B : ℝ} (sigma1 : ℝ) (hB0 : 0 ≤ B) (hB : B ≤ 0.00169)
    (x y : ℝ) : |dsig B sigma1 x - dsig B sigma1 y| ≤ 0.0034 * |x - y| := by
  have h := dsig_diff_core B (cos (2 * sigma1 + x)) (cos (2 * sigma1 + y))
    (sin x) (sin y) (cos x) (cos y) |x - y| hB0 hB (abs_nonneg _)
    (abs_cos_le_one _) (abs_cos_le_one _) (abs_sin_le_one _) (abs_sin_le_one _)
    (abs_cos_le_one _) (abs_cos_le_one _)
    (by
      have h2 := abs_cos_sub_le (2 * sigma1 + x) (2 * sigma1 + y)
      calc |cos (2 * sigma1 + x) - cos (2 * sigma1 + y)|
          ≤ |2 * sigma1 + x - (2 * sigma1 + y)| := h2
        _ = |x - y| := by congr 1; ring)
    (abs_sin_sub_le x y) (abs_cos_sub_le x y)
  simpa only [dsig] using h

/-- When the direct loop returns, the last change in the angular distance
is at most the `1e-12` tolerance (this is exactly the loop's exit test). -/
lemma vdLoop_exit {B sigma1 sigma0 : ℝ} :
    ∀ {n : ℕ} {s s' : VDState}, vdLoop B sigma1 sigma0 n s = some s' →
      |s'.sigma - s'.sigma_prev| ≤ 1e-12 := by
  intro n
  induction n with
  | zero => intro s s' h; simp [vdLoop] at h
  | succ n ih =>
    intro s s' h
    rw [vdLoop] at h
    split_ifs at h with hc
    · exact ih h
    · have hs : s = s' := by injection h
      subst hs
      exact not_lt.mp hc

/-- More fuel never changes a converged run. -/
lemma vdLoop_mono {B sigma1 sigma0 : ℝ} :
    ∀ {n m : ℕ} {s r : VDState}, n ≤ m →
      vdLoop B sigma1 sigma0 n s = some r →
      vdLoop B sigma1 sigma0 m s = some r := by
  intro n
  induction n with
  | zero => intro m s r _ h; simp [vdLoop] at h
  | succ n ih =>
    intro m s r hnm h
    obtain ⟨m', rfl⟩ : ∃ m', m = m' + 1 := ⟨m - 1, by omega⟩
    rw [vdLoop] at h ⊢
    split_ifs at h ⊢ with hc
    · exact ih (by omega) h
    · exact h

lemma vdLoop_some_aux (B sigma1 sigma0 : ℝ) (hB0 : 0 ≤ B) (hB : B ≤ 0.00169) :
    ∀ (n : ℕ) (x : ℝ) (s : VDState), s.sigma_prev = x →
      s.sigma = sigma0 + dsig B sigma1 x →
      (0.0034 : ℝ) ^ n * |s.sigma - x| ≤ 1e-12 →
      (vdLoop B sigma1 sigma0 (n + 1) s).isSome := by
  intro n
  induction n with
  | zero =>
    intro x s hp hs hq
    rw [pow_zero, one_mul] at hq
    rw [vdLoop, if_neg]
    · simp
    · rw [hp]
      exact not_lt.mpr hq
  | succ n ih =>
    intro x s hp hs hq
    rw [vdLoop]
    split_ifs with hc
    · have key : (vdStep B sigma1 sigma0 s).sigma - s.sigma =
          dsig B sigma1 s.sigma - dsig B sigma1 x := by
        show sigma0 + dsig B sigma1 s.sigma - s.sigma = _
        rw [hs]
        ring
      have hlip := dsig_lipschitz sigma1 hB0 hB s.sigma x
      apply ih s.sigma (vdStep B sigma1 sigma0 s) rfl rfl
      calc (0.0034 : ℝ) ^ n * |(vdStep B sigma1 sigma0 s).sigma - s.sigma|
          = (0.0034 : ℝ) ^ n * |dsig B sigma1 s.sigma - dsig B sigma1 x| := by
            rw [key]
        _ ≤ (0.0034 : ℝ) ^ n * (0.0034 * |s.sigma - x|) :=
            mul_le_mul_of_nonneg_left hlip (by positivity)
        _ = (0.0034 : ℝ) ^ (n + 1) * |s.sigma - x| := by ring
        _ ≤ 1e-12 := hq
    · simp

/-- The direct-solver loop always converges within 5 iterations (fuel 6)
when `0 ≤ B ≤ 0.00169`. -/
lemma vdLoop_init_some (B sigma1 sigma0 : ℝ) (hB0 : 0 ≤ B)
    (hB : B ≤ 0.00169) :
    (vdLoop B sigma1 sigma0 6 ⟨2 * π, sigma0, 0, 0, 0⟩).isSome := by
  have h6 : (6 : ℕ) = 5 + 1 := rfl
  rw [h6, vdLoop]
  split_ifs with hc
  · apply vdLoop_some_aux B sigma1 sigma0 hB0 hB 4 sigma0
      (vdStep B sigma1 sigma0 ⟨2 * π, sigma0, 0, 0, 0⟩) rfl rfl
    have hstep : (vdStep B sigma1 sigma0 ⟨2 * π, sigma0, 0, 0, 0⟩).sigma -
        sigma0 = dsig B sigma1 sigma0 := by
      show sigma0 + dsig B sigma1 sigma0 - sigma0 = _
      ring
    rw [hstep]
    have hd := dsig_abs_le sigma1 sigma0 hB0 hB
    calc (0.0034 : ℝ) ^ 4 * |dsig B sigma1 sigma0|
        ≤ (0.0034 : ℝ) ^ 4 * 0.0017 :=
          mul_le_mul_of_nonneg_left hd (by positivity)
      _ ≤ 1e-12 := by norm_num
  · simp

/-- `B` is never negative or larger than `0.00169` on WGS84, whatever the
(real-valued) inputs. -/
lemma bigB_bounds {u2 : ℝ} (h0 : 0 ≤ u2) (h1 : u2 ≤ 0.00674) :
    0 ≤ u2 / 1024 * (256 + u2 * (-128 + u2 * (74 - 47 * u2))) ∧
      u2 / 1024 * (256 + u2 * (-128 + u2 * (74 - 47 * u2))) ≤ 0.00169 := by
  have hmid : -128 + u2 * (74 - 47 * u2) ≤ 0 := by nlinarith
  have hinner_le : 256 + u2 * (-128 + u2 * (74 - 47 * u2)) ≤ 256 := by nlinarith
  have hinner_ge : 0 ≤ 256 + u2 * (-128 + u2 * (74 - 47 * u2)) := by nlinarith
  constructor
  · exact mul_nonneg (by positivity) hinner_ge
  · have : u2 / 1024 * (256 + u2 * (-128 + u2 * (74 - 47 * u2))) ≤
        u2 / 1024 * 256 := by
      apply mul_le_mul_of_nonneg_left hinner_le (by positivity)
    nlinarith

lemma wgs84_u2_bounds {c : ℝ} (h0 : 0 ≤ c) (h1 : c ≤ 1) :
    0 ≤ c * ((6378137 : ℝ) ^ 2 - (6378137 * (1 - 1 / 298.257223563)) ^ 2) /
        (6378137 * (1 - 1 / 298.257223563)) ^ 2 ∧
      c * ((6378137 : ℝ) ^ 2 - (6378137 * (1 - 1 / 298.257223563)) ^ 2) /
        (6378137 * (1 - 1 / 298.257223563)) ^ 2 ≤ 0.00674 := by
  have hk : (0 : ℝ) ≤ ((6378137 : ℝ) ^ 2 -
      (6378137 * (1 - 1 / 298.257223563)) ^ 2) /
      (6378137 * (1 - 1 / 298.257223563)) ^ 2 ∧
      ((6378137 : ℝ) ^ 2 - (6378137 * (1 - 1 / 298.257223563)) ^ 2) /
      (6378137 * (1 - 1 / 298.257223563)) ^ 2 ≤ 0.00674 := by
    norm_num
  constructor
  · rw [mul_div_assoc]
    exact mul_nonneg h0 hk.1
  · rw [mul_div_assoc]
    calc c * (((6378137 : ℝ) ^ 2 - (6378137 * (1 - 1 / 298.257223563)) ^ 2) /
        (6378137 * (1 - 1 / 298.257223563)) ^ 2) ≤
        1 * (((6378137 : ℝ) ^ 2 - (6378137 * (1 - 1 / 298.257223563)) ^ 2) /
        (6378137 * (1 - 1 / 298.257223563)) ^ 2) :=
        mul_le_mul_of_nonneg_right h1 hk.1
      _ ≤ 0.00674 := by rw [one_mul]; exact hk.2

/-- The WGS84 `vdParams` satisfy the `B` bounds needed for contraction. -/
lemma vdParams_B_bounds (lat1 bearing dist : ℝ) :
    0 ≤ (vdParams lat1 bearing dist 6378137 (1 / 298.257223563)).bigB ∧
      (vdParams lat1 bearing dist 6378137 (1 / 298.257223563)).bigB ≤
        0.00169 := by
  have hcos2 : 0 ≤ 1 - (1 / Real.sqrt (1 + ((1 - 1 / 298.257223563) *
      tan lat1) ^ 2) * sin bearing) ^ 2 ∧
      1 - (1 / Real.sqrt (1 + ((1 - 1 / 298.257223563) * tan lat1) ^ 2) *
      sin bearing) ^ 2 ≤ 1 := by
    have hsq : (1 : ℝ) ≤ Real.sqrt (1 + ((1 - 1 / 298.257223563) *
        tan lat1) ^ 2) := by
      have h1 : Real.sqrt 1 ≤ Real.sqrt (1 + ((1 - 1 / 298.257223563) *
          tan lat1) ^ 2) :=
        Real.sqrt_le_sqrt (by nlinarith [sq_nonneg ((1 - 1 / 298.257223563) *
          tan lat1)])
      rwa [Real.sqrt_one] at h1
    have hpos : 0 < Real.sqrt (1 + ((1 - 1 / 298.257223563) * tan lat1) ^ 2) :=
      lt_of_lt_of_le one_pos hsq
    have hc1 : 0 ≤ 1 / Real.sqrt (1 + ((1 - 1 / 298.257223563) *
        tan lat1) ^ 2) := by positivity
    have hc2 : 1 / Real.sqrt (1 + ((1 - 1 / 298.257223563) * tan lat1) ^ 2) ≤
        1 := by
      rw [div_le_one hpos]
      exact hsq
    have hsin := neg_one_le_sin bearing
    have hsin2 := sin_le_one bearing
    have habs : (1 / Real.sqrt (1 + ((1 - 1 / 298.257223563) * tan lat1) ^ 2) *
        sin bearing) ^ 2 ≤ 1 := by
      have hkey : (1 / Real.sqrt (1 + ((1 - 1 / 298.257223563) * tan lat1) ^ 2) *
          sin bearing) ^ 2 = (1 / Real.sqrt (1 + ((1 - 1 / 298.257223563) *
          tan lat1) ^ 2)) ^ 2 * sin bearing ^ 2 := by ring
      rw [hkey]
      have h2 := sin_sq_le_one bearing
      have h3 : (1 / Real.sqrt (1 + ((1 - 1 / 298.257223563) *
          tan lat1) ^ 2)) ^ 2 ≤ 1 := by nlinarith
      nlinarith [sq_nonneg (sin bearing),
        sq_nonneg (1 / Real.sqrt (1 + ((1 - 1 / 298.257223563) * tan lat1) ^ 2))]
    constructor
    · linarith
    · nlinarith [sq_nonneg (1 / Real.sqrt (1 + ((1 - 1 / 298.257223563) *
        tan lat1) ^ 2) * sin bearing)]
  have hu2 := wgs84_u2_bounds hcos2.1 hcos2.2
  have hB := bigB_bounds hu2.1 hu2.2
  dsimp only [vdParams]
  exact hB

/-- `_vincenty_direct` returns a destination for every input once given
fuel at least 6 (on WGS84). -/
lemma vincenty_direct_some (fuel : ℕ) (h6 : 6 ≤ fuel)
    (lat1 lon1 bearing dist : ℝ) :
    ∃ out, vincenty_direct fuel lat1 lon1 bearing dist 6378137
      (1 / 298.257223563) = some out := by
  have hB := vdParams_B_bounds lat1 bearing dist
  set p := vdParams lat1 bearing dist 6378137 (1 / 298.257223563) with hp
  have h := vdLoop_init_some p.bigB p.sigma1 p.sigma0 hB.1 hB.2
  obtain ⟨s, hs⟩ := Option.isSome_iff_exists.mp h
  have hs' := vdLoop_mono h6 hs
  unfold vincenty_direct
  rw [← hp]
  dsimp only
  rw [hs']
  exact ⟨_, rfl⟩

/-- `generate_wgs84_coordinate` succeeds on every valid great-circle input
with fuel at least 6. -/
lemma gwc_great_ok (fuel : ℕ) (h6 : 6 ≤ fuel)
    {latitude longitude elevation bearing dist : ℝ}
    (hlat : -90 ≤ latitude ∧ latitude ≤ 90)
    (hlon : -180 ≤ longitude ∧ longitude ≤ 180)
    (hbrg : 0 ≤ bearing ∧ bearing ≤ 360) (hdist : 0 ≤ dist) :
    ∃ out, generate_wgs84_coordinate fuel latitude longitude elevation
      bearing dist .great_circle = Except.ok out := by
  obtain ⟨ll, hll⟩ := vincenty_direct_some fuel h6
    (degrees_to_radians latitude) (degrees_to_radians longitude)
    (degrees_to_radians bearing) dist
  unfold generate_wgs84_coordinate
  rw [if_neg (not_not_intro hlat), if_neg (not_not_intro hlon),
    if_neg (not_not_intro hbrg), if_neg (not_lt.mpr hdist)]
  dsimp only
  rw [hll]
  exact ⟨_, rfl⟩


/-! ## Concrete evaluations of the inverse solver -/

lemma pyround_zero (n : ℕ) : pyround 0 n = 0 :=
  @pyround_of_int_mul 0 n 0 (by norm_num)

lemma ELLIPSOIDS_WGS84 :
    ELLIPSOIDS "WGS84" = some (6378137, 1 / 298.257223563) := by
  rfl

/-- `distance` on two exactly coincident valid points takes the co-incident
early return and yields `(0.0, 0.0)`. -/
lemma distanceF_same {lat lon : ℝ} (hlat : -90 ≤ lat ∧ lat ≤ 90)
    (hlon : -180 ≤ lon ∧ lon ≤ 180) :
    distanceF (lat, lon) (lat, lon) "WGS84" .great_circle false =
      .ok (0, 0) := by
  unfold distanceF
  dsimp only
  rw [if_neg (not_not_intro ⟨hlat.1, hlat.2, hlat.1, hlat.2⟩),
    if_neg (not_not_intro ⟨hlon.1, hlon.2, hlon.1, hlon.2⟩),
    ELLIPSOIDS_WGS84]
  dsimp only
  unfold great_circle_distance
  rw [if_pos (by norm_num : |lat - lat| < 1e-10 ∧ |lon - lon| < 1e-10)]
  dsimp only
  rw [pyround_zero, pyround_zero]

/-- One body of the inverse loop in the equatorial configuration
(`U1 = U2 = 0`): the iteration is exactly `fun x => L + f * x` and the
auxiliary state takes the displayed closed forms. -/
lemma gcBody_equatorial (f L x p s3 s4 s5 s6 s7 s8 s9 s10 : ℝ)
    (hx0 : 0 < x) (hxpi : x < π) :
    gcBody L f 0 1 0 1 ⟨x, p, s3, s4, s5, s6, s7, s8, s9, s10⟩ =
      some ⟨L + f * x, x, sin x, cos x, x, 1, 0, 0, sin x, cos x⟩ := by
  have hsin : 0 < sin x := sin_pos_of_pos_of_lt_pi hx0 hxpi
  unfold gcBody
  dsimp only
  have hs : Real.sqrt ((1 * sin x) ^ 2 + (1 * 0 - 0 * 1 * cos x) ^ 2) =
      sin x := by
    rw [show (1 * sin x) ^ 2 + ((1 : ℝ) * 0 - 0 * 1 * cos x) ^ 2 = sin x ^ 2
      by ring]
    exact Real.sqrt_sq hsin.le
  rw [hs, if_neg hsin.ne']
  have hcs : (0 : ℝ) * 0 + 1 * 1 * cos x = cos x := by ring
  rw [hcs]
  have hsa : (1 : ℝ) * 1 * sin x / sin x = 1 := by
    rw [show (1 : ℝ) * 1 * sin x = sin x by ring, div_self hsin.ne']
  rw [hsa, atan2_sin_cos hx0 hxpi]
  have hc2 : (1 : ℝ) - 1 ^ 2 = 0 := by norm_num
  rw [hc2, if_pos rfl]
  rw [Option.some_inj]
  have hC : f / 16 * 0 * (4 + f * (4 - 3 * 0)) = 0 := by ring
  rw [hC]
  congr 1
  ring



lemma gcLoop_step {L f a b c d : ℝ} {n : ℕ} {s s' : GCState}
    (hcond : 1e-12 < |s.lambda_val - s.lambda_prev|)
    (hbody : gcBody L f a b c d s = some s') :
    gcLoop L f a b c d (n + 1) s = gcLoop L f a b c d n s' := by
  rw [gcLoop, if_pos hcond, hbody]

lemma gcLoop_conv {L f a b c d : ℝ} {n : ℕ} {s : GCState}
    (hcond : ¬ 1e-12 < |s.lambda_val - s.lambda_prev|) :
    gcLoop L f a b c d (n + 1) s = .conv s (n + 1) := by
  rw [gcLoop, if_neg hcond]

set_option maxHeartbeats 4000000 in
/-- The Vincenty inverse loop between `(0,0)` and `(0,90)` converges after
exactly 5 iterations, with 95 budget left; the geometric quantities of the
final state have the displayed closed forms. -/
lemma gcLoop_equatorial_90 :
    gcLoop (π / 2) (1 / 298.257223563) 0 1 0 1 100
      ⟨π / 2, 2 * π, 0, 0, 0, 0, 0, 0, 0, 0⟩ =
    .conv ⟨π / 2 + 1 / 298.257223563 * (π / 2 + 1 / 298.257223563 *
        (π / 2 + 1 / 298.257223563 * (π / 2 + 1 / 298.257223563 *
          (π / 2 + 1 / 298.257223563 * (π / 2))))),
      π / 2 + 1 / 298.257223563 * (π / 2 + 1 / 298.257223563 *
        (π / 2 + 1 / 298.257223563 * (π / 2 + 1 / 298.257223563 * (π / 2)))),
      sin (π / 2 + 1 / 298.257223563 * (π / 2 + 1 / 298.257223563 *
        (π / 2 + 1 / 298.257223563 * (π / 2 + 1 / 298.257223563 * (π / 2))))),
      cos (π / 2 + 1 / 298.257223563 * (π / 2 + 1 / 298.257223563 *
        (π / 2 + 1 / 298.257223563 * (π / 2 + 1 / 298.257223563 * (π / 2))))),
      π / 2 + 1 / 298.257223563 * (π / 2 + 1 / 298.257223563 *
        (π / 2 + 1 / 298.257223563 * (π / 2 + 1 / 298.257223563 * (π / 2)))),
      1, 0, 0,
      sin (π / 2 + 1 / 298.257223563 * (π / 2 + 1 / 298.257223563 *
        (π / 2 + 1 / 298.257223563 * (π / 2 + 1 / 298.257223563 * (π / 2))))),
      cos (π / 2 + 1 / 298.257223563 * (π / 2 + 1 / 298.257223563 *
        (π / 2 + 1 / 298.257223563 * (π / 2 + 1 / 298.257223563 * (π / 2)))))⟩
      95 := by
  set f : ℝ := 1 / 298.257223563 with hf_def
  have hf0 : (0 : ℝ) < f := by rw [hf_def]; norm_num
  have hf1 : f < 1 / 2 := by rw [hf_def]; norm_num
  set l0 : ℝ := π / 2 with hl0_def
  set l1 : ℝ := π / 2 + f * l0 with hl1_def
  set l2 : ℝ := π / 2 + f * l1 with hl2_def
  set l3 : ℝ := π / 2 + f * l2 with hl3_def
  set l4 : ℝ := π / 2 + f * l3 with hl4_def
  set l5 : ℝ := π / 2 + f * l4 with hl5_def
  have hpi := pi_pos
  have hb0 : 0 < l0 ∧ l0 < π := by
    constructor <;> [positivity; nlinarith]
  have hb1 : 0 < l1 ∧ l1 < π := by
    rw [hl1_def, hl0_def]
    rw [hf_def]
    constructor <;> nlinarith
  have hb2 : 0 < l2 ∧ l2 < π := by
    rw [hl2_def, hl1_def, hl0_def, hf_def]
    constructor <;> nlinarith
  have hb3 : 0 < l3 ∧ l3 < π := by
    rw [hl3_def, hl2_def, hl1_def, hl0_def, hf_def]
    constructor <;> nlinarith
  have hb4 : 0 < l4 ∧ l4 < π := by
    rw [hl4_def, hl3_def, hl2_def, hl1_def, hl0_def, hf_def]
    constructor <;> nlinarith
  have c1 : (1e-12 : ℝ) < |l0 - 2 * π| := by
    rw [hl0_def, abs_of_nonpos (by nlinarith)]
    nlinarith [pi_gt_three]
  have c2 : (1e-12 : ℝ) < |l1 - l0| := by
    rw [show l1 - l0 = f * (π / 2) from by rw [hl1_def, hl0_def]; ring,
      abs_of_pos (by positivity)]
    rw [hf_def]
    nlinarith [pi_gt_three]
  have c3 : (1e-12 : ℝ) < |l2 - l1| := by
    rw [show l2 - l1 = f ^ 2 * (π / 2) from by
      rw [hl2_def, hl1_def, hl0_def]; ring, abs_of_pos (by positivity)]
    rw [hf_def]
    nlinarith [pi_gt_three]
  have c4 : (1e-12 : ℝ) < |l3 - l2| := by
    rw [show l3 - l2 = f ^ 3 * (π / 2) from by
      rw [hl3_def, hl2_def, hl1_def, hl0_def]; ring, abs_of_pos (by positivity)]
    rw [hf_def]
    nlinarith [pi_gt_three]
  have c5 : (1e-12 : ℝ) < |l4 - l3| := by
    rw [show l4 - l3 = f ^ 4 * (π / 2) from by
      rw [hl4_def, hl3_def, hl2_def, hl1_def, hl0_def]; ring,
      abs_of_pos (by positivity)]
    rw [hf_def]
    nlinarith [pi_gt_three]
  have c6 : ¬ (1e-12 : ℝ) < |l5 - l4| := by
    rw [show l5 - l4 = f ^ 5 * (π / 2) from by
      rw [hl5_def, hl4_def, hl3_def, hl2_def, hl1_def, hl0_def]; ring,
      abs_of_pos (by positivity), hf_def]
    push_neg
    nlinarith [pi_lt_d6]
  have e1 := gcBody_equatorial f (π / 2) l0 (2 * π) 0 0 0 0 0 0 0 0 hb0.1 hb0.2
  have e2 := gcBody_equatorial f (π / 2) l1 l0 (sin l0) (cos l0) l0 1 0 0
    (sin l0) (cos l0) hb1.1 hb1.2
  have e3 := gcBody_equatorial f (π / 2) l2 l1 (sin l1) (cos l1) l1 1 0 0
    (sin l1) (cos l1) hb2.1 hb2.2
  have e4 := gcBody_equatorial f (π / 2) l3 l2 (sin l2) (cos l2) l2 1 0 0
    (sin l2) (cos l2) hb3.1 hb3.2
  have e5 := gcBody_equatorial f (π / 2) l4 l3 (sin l3) (cos l3) l3 1 0 0
    (sin l3) (cos l3) hb4.1 hb4.2
  have t1 : gcLoop (π / 2) f 0 1 0 1 100 ⟨l0, 2 * π, 0, 0, 0, 0, 0, 0, 0, 0⟩ =
      gcLoop (π / 2) f 0 1 0 1 99 ⟨l1, l0, sin l0, cos l0, l0, 1, 0, 0,
        sin l0, cos l0⟩ := by
    apply gcLoop_step c1
    rw [e1, hl1_def]
  have t2 : gcLoop (π / 2) f 0 1 0 1 99 ⟨l1, l0, sin l0, cos l0, l0, 1, 0, 0,
      sin l0, cos l0⟩ = gcLoop (π / 2) f 0 1 0 1 98 ⟨l2, l1, sin l1, cos l1,
        l1, 1, 0, 0, sin l1, cos l1⟩ := by
    apply gcLoop_step c2
    rw [e2, hl2_def]
  have t3 : gcLoop (π / 2) f 0 1 0 1 98 ⟨l2, l1, sin l1, cos l1, l1, 1, 0, 0,
      sin l1, cos l1⟩ = gcLoop (π / 2) f 0 1 0 1 97 ⟨l3, l2, sin l2, cos l2,
        l2, 1, 0, 0, sin l2, cos l2⟩ := by
    apply gcLoop_step c3
    rw [e3, hl3_def]
  have t4 : gcLoop (π / 2) f 0 1 0 1 97 ⟨l3, l2, sin l2, cos l2, l2, 1, 0, 0,
      sin l2, cos l2⟩ = gcLoop (π / 2) f 0 1 0 1 96 ⟨l4, l3, sin l3, cos l3,
        l3, 1, 0, 0, sin l3, cos l3⟩ := by
    apply gcLoop_step c4
    rw [e4, hl4_def]
  have t5 : gcLoop (π / 2) f 0 1 0 1 96 ⟨l4, l3, sin l3, cos l3, l3, 1, 0, 0,
      sin l3, cos l3⟩ = gcLoop (π / 2) f 0 1 0 1 95 ⟨l5, l4, sin l4, cos l4,
        l4, 1, 0, 0, sin l4, cos l4⟩ := by
    apply gcLoop_step c5
    rw [e5, hl5_def]
  have t6 : gcLoop (π / 2) f 0 1 0 1 95 ⟨l5, l4, sin l4, cos l4, l4, 1, 0, 0,
      sin l4, cos l4⟩ = .conv ⟨l5, l4, sin l4, cos l4, l4, 1, 0, 0,
        sin l4, cos l4⟩ 95 := by
    have h95 : (95 : ℕ) = 94 + 1 := rfl
    rw [h95]
    exact gcLoop_conv c6
  rw [hl0_def] at t1
  rw [t1, t2, t3, t4, t5, t6]


lemma one_le_pyround2 {x : ℝ} (hx : 2 ≤ x) : 1 ≤ pyround x 2 := by
  have h := abs_le.mp (abs_pyround_sub x 2)
  have h1 := h.1
  norm_num at h1
  linarith

set_option maxHeartbeats 2000000 in
/-- `distance((0,0),(0,90))` converges through the Vincenty iteration and
returns azimuth exactly 90 with a strictly positive distance. -/
lemma distanceF_0_90 :
    ∃ D : ℝ, distanceF (0, 0) (0, 90) "WGS84" .great_circle false =
      .ok (90, D) ∧ 1 ≤ D := by
  simp only [distanceF]
  rw [if_neg (not_not_intro (by norm_num)), if_neg (not_not_intro (by norm_num)),
    ELLIPSOIDS_WGS84]
  simp only [great_circle_distance]
  rw [if_neg (by norm_num)]
  have hdr0 : degrees_to_radians 0 = 0 := by unfold degrees_to_radians; ring
  have hL : degrees_to_radians 90 - degrees_to_radians 0 = π / 2 := by
    unfold degrees_to_radians
    ring
  have hU : arctan ((1 - 1 / 298.257223563) * tan (degrees_to_radians 0)) =
      0 := by
    rw [hdr0, Real.tan_zero, mul_zero, arctan_zero]
  rw [hL, hU, Real.sin_zero, Real.cos_zero]
  rw [gcLoop_equatorial_90]
  dsimp only
  rw [if_neg (by norm_num : ¬ (95 : ℕ) = 0)]
  simp only [Bool.false_eq_true, if_false, one_mul, mul_zero, zero_mul, mul_one,
    sub_zero, zero_add, add_zero, zero_div, zero_sub, neg_zero]
  set l4 : ℝ := π / 2 + 1 / 298.257223563 * (π / 2 + 1 / 298.257223563 *
    (π / 2 + 1 / 298.257223563 * (π / 2 + 1 / 298.257223563 * (π / 2))))
    with hl4_def
  have hl4pos : 0 < l4 := by rw [hl4_def]; positivity
  have hl4pi : l4 < π := by
    rw [hl4_def]
    nlinarith [pi_pos]
  have hsin4 : 0 < sin l4 := sin_pos_of_pos_of_lt_pi hl4pos hl4pi
  rw [atan2_pos_zero hsin4]
  have hdeg : radians_to_degrees (π / 2) = 90 := by
    unfold radians_to_degrees
    field_simp
    ring
  rw [hdeg]
  have hnorm : normalize_azimuth 90 = 90 := by
    unfold normalize_azimuth
    dsimp only
    rw [pymod_of_nonneg_of_lt (by norm_num) (by norm_num)]
    norm_num
  rw [hnorm]
  have h90 : pyround 90 5 = 90 :=
    pyround_of_int_mul (k := 9000000) (by norm_num)
  rw [h90]
  refine ⟨_, rfl, ?_⟩
  apply one_le_pyround2
  have hb : (6000000 : ℝ) ≤ 6378137 * (1 - 1 / 298.257223563) := by norm_num
  nlinarith [pi_gt_three]

/-! ## The profile, builder, direct-solver and geoid theorems -/

/-- Successful runs of `generate_equidistant_points` produce exactly the
rounded `profileRaw` list together with the distance returned by the
inverse solver. -/
lemma generate_eval {lat1 lon1 elev1 lat2 lon2 elev2 : ℝ} {n : ℕ}
    (h1 : validCoordinates lat1 lon1 elev1)
    (h2 : validCoordinates lat2 lon2 elev2) {az total : ℝ}
    (hd : distanceF (lat1, lon1) (lat2, lon2) "WGS84" .great_circle false =
      .ok (az, total)) :
    generate_equidistant_points lat1 lon1 elev1 lat2 lon2 elev2 n =
      .ok ⟨(profileRaw lat1 lon1 elev1 lat2 lon2 elev2 total n).filter
             (fun p => p.point_type = "Intermediate"),
           (profileRaw lat1 lon1 elev1 lat2 lon2 elev2 total n).map roundPPoint,
           total, calculate_elevation_slope elev1 elev2 total⟩ := by
  unfold generate_equidistant_points
  rw [if_neg (not_not_intro h1), if_neg (not_not_intro h2), hd]
  rfl

lemma profileRaw_length (lat1 lon1 elev1 lat2 lon2 elev2 total : ℝ) (n : ℕ) :
    (profileRaw lat1 lon1 elev1 lat2 lon2 elev2 total n).length = n + 2 := by
  unfold profileRaw
  simp [List.length_append]

lemma profileRaw_dists (lat1 lon1 elev1 lat2 lon2 elev2 total : ℝ) (n : ℕ) :
    (profileRaw lat1 lon1 elev1 lat2 lon2 elev2 total n).map
        (fun p => p.distance_from_start_m) =
      (List.range (n + 2)).map
        (fun i : ℕ => total / ((n : ℝ) + 1) * (i : ℝ)) := by
  unfold profileRaw
  have hrange : List.range (n + 2) = 0 :: (List.range' 1 n ++ [1 + n]) := by
    rw [show n + 2 = (n + 1) + 1 from rfl, List.range_eq_range',
      List.range'_succ, List.range'_1_concat]
  rw [hrange]
  simp only [List.map_cons, List.map_append, List.map_map, List.map_nil]
  have hne : ((n : ℝ) + 1) ≠ 0 := by positivity
  have hcast : total / ((n : ℝ) + 1) * ((1 + n : ℕ) : ℝ) = total := by
    push_cast
    rw [show (1 : ℝ) + (n : ℝ) = (n : ℝ) + 1 from by ring,
      div_mul_cancel₀ total hne]
  refine List.cons_eq_cons.mpr ⟨by norm_num, ?_⟩
  congr 1
  rw [hcast]

/-- Interior entries of the raw profile: coordinates from the spherical
destination helper at cumulative distance `(i+1) * total/(n+1)`, elevation
from the angular-slope interpolation. -/
lemma profileRaw_get_interior (lat1 lon1 elev1 lat2 lon2 elev2 total : ℝ)
    (n : ℕ) (i : ℕ) (hi : i < n) :
    (profileRaw lat1 lon1 elev1 lat2 lon2 elev2 total n)[i + 1]? =
      some ⟨i + 1, "TT80_pt_" ++ toString (i + 1),
        (calculate_destination_point lat1 lon1
          (calculate_initial_bearing lat1 lon1 lat2 lon2)
          (total / ((n : ℝ) + 1) * ((i : ℝ) + 1))).1,
        (calculate_destination_point lat1 lon1
          (calculate_initial_bearing lat1 lon1 lat2 lon2)
          (total / ((n : ℝ) + 1) * ((i : ℝ) + 1))).2,
        interpolate_elevation elev1 (calculate_elevation_slope elev1 elev2 total)
          (total / ((n : ℝ) + 1) * ((i : ℝ) + 1)),
        total / ((n : ℝ) + 1) * ((i : ℝ) + 1)⟩ := by
  simp only [profileRaw]
  simp only [List.getElem?_append, List.length_cons, List.length_map,
    List.length_range']
  rw [if_pos (by omega : i + 1 < n + 1)]
  simp only [List.getElem?_cons_succ, List.getElem?_map,
    List.getElem?_range' 1 1 hi, Option.map_some']
  rw [show 1 + 1 * i = i + 1 from by ring]
  push_cast
  rfl

lemma chain'_lt_map_range (g : ℕ → ℝ) (m : ℕ)
    (h : ∀ i, i + 1 < m → g i < g (i + 1)) :
    List.Chain' (fun a b : ℝ => a < b) ((List.range m).map g) := by
  rw [List.chain'_map]
  cases m with
  | zero => simp
  | succ m' =>
    rw [List.chain'_range_succ]
    intro i hi
    exact h i (by omega)

/-- 5-decimal rounding keeps strictly increasing values strictly increasing
as soon as they are more than `1e-5` apart. -/
lemma pyround5_strict {a b : ℝ} (h : a + 1e-5 < b) :
    pyround a 5 < pyround b 5 := by
  have ha := abs_le.mp (abs_pyround_sub a 5)
  have hb := abs_le.mp (abs_pyround_sub b 5)
  have h5 : ((1 : ℝ) / 2 / 10 ^ 5) = 5e-6 := by norm_num
  rw [h5] at ha hb
  linarith [ha.2, hb.1]

lemma except_bind_ok {ε α β : Type} (a : α) (f : α → Except ε β) :
    (Except.ok a >>= f : Except ε β) = f a := rfl

lemma except_bind_pure {ε α β : Type} (a : α) (f : α → Except ε β) :
    ((pure a : Except ε α) >>= f : Except ε β) = f a := rfl

/-- The spherical destination helper at distance zero returns the start
point (for any bearing). -/
lemma calc_dest_zero (b : ℝ) : calculate_destination_point 0 0 b 0 = (0, 0) := by
  unfold calculate_destination_point
  have h0 : degrees_to_radians 0 = 0 := by unfold degrees_to_radians; ring
  simp only [h0]
  rw [show (0 : ℝ) / 6378137 = 0 by norm_num]
  rw [Real.sin_zero, Real.cos_zero]
  rw [show (0 : ℝ) * 1 + 1 * 0 * cos b = 0 by ring, Real.arcsin_zero]
  rw [show Real.sin b * 0 * 1 = 0 by ring]
  rw [show (1 : ℝ) - 0 * Real.sin 0 = 1 by ring]
  rw [atan2_zero_pos one_pos]
  unfold radians_to_degrees
  rw [show (0 : ℝ) * 180 / π = 0 by ring,
    show ((0 : ℝ) + 0) * 180 / π = 0 by ring]
  rw [show (0 : ℝ) + 180 = 180 by ring,
    pymod_of_nonneg_of_lt (by norm_num) (by norm_num)]
  norm_num

/-- When `generate_equidistant_points` succeeds, the TT80 block succeeds
and its profile total distance is the distance the solver returned. -/
lemma tt80_block_ok (g : ℝ → ℝ → ℝ) {lat1 lon1 e1 lat2 lon2 e2 : ℝ}
    (h1 : validCoordinates lat1 lon1 (e1 * 0.3408))
    (h2 : validCoordinates lat2 lon2 (e2 * 0.3408)) {az total : ℝ}
    (hd : distanceF (lat1, lon1) (lat2, lon2) "WGS84" .great_circle false =
      .ok (az, total)) :
    ∃ tb : TT80Out, tt80_block g lat1 lon1 e1 lat2 lon2 e2 = .ok tb ∧
      tb.total_distance_m = total := by
  unfold tt80_block
  rw [generate_eval h1 h2 hd]
  exact ⟨_, rfl, rfl⟩

lemma f2m_nonneg {x : ℝ} (hx : 0 ≤ x) : 0 ≤ f2m x := by
  unfold f2m
  nlinarith

set_option maxHeartbeats 1000000 in
/-- Full evaluation of the procedure builder on a record whose two ends
coincide at `(0,0)` with no displaced threshold and no redux: every solver
call succeeds and the profile total distance is zero. -/
lemma makerunway_A (fuel : ℕ) (h6 : 6 ≤ fuel) (g : ℝ → ℝ → ℝ)
    (he le mv hde TD STP w ga : ℝ) (hTD : 0 ≤ TD) (hSTP : 0 ≤ STP)
    (hhe : 0 ≤ he ∧ he ≤ 9000) (hle : 0 ≤ le ∧ le ≤ 9000) :
    ∃ F : RwFields,
      makerunway_record fuel g ⟨0, 0, he, none, hde, 0, 0, 0, le, mv⟩
        ⟨TD, STP, 3, 500, w, ga, 1⟩ = .ok F ∧
      F.tp_alt = (if he > le then ((⌈(he + 500) / 100⌉ : ℤ) : ℝ) * 100
        else if le > he then ((⌈(le + 500) / 100⌉ : ℤ) : ℝ) * 100 else 500) ∧
      F.total_distance_m = 0 ∧ F.total_distance_ft = m2f 0 ∧
      F.runway_remaining = m2f 0 - TD - STP ∧
      F.stpt_lat = 0 ∧ F.stpt_long = 0 ∧ F.hi_disp_thld_ft = 0 ∧
      F.app_horizontal_ft = 500 / tan (degrees_to_radians 3) ∧
      F.rw_brg_deg = 0 := by
  have hb360 : ∀ x : ℝ, 0 ≤ pymod x 360 ∧ pymod x 360 ≤ 360 :=
    fun x => ⟨pymod_nonneg x (by norm_num), (pymod_lt x (by norm_num)).le⟩
  have hval1 : validCoordinates 0 0 (he * 0.3408) := by
    unfold validCoordinates
    refine ⟨by norm_num, by norm_num, by norm_num, by norm_num, ?_, ?_⟩ <;>
      nlinarith [hhe.1, hhe.2]
  have hval2 : validCoordinates 0 0 (le * 0.3408) := by
    unfold validCoordinates
    refine ⟨by norm_num, by norm_num, by norm_num, by norm_num, ?_, ?_⟩ <;>
      nlinarith [hle.1, hle.2]
  have hds := @distanceF_same 0 0 (by norm_num) (by norm_num)
  simp only [makerunway_record]
  try dsimp only
  rw [hds, except_bind_ok]
  try dsimp only
  rw [if_neg (by norm_num : ¬ (0 : ℝ) ≠ 0), except_bind_pure]
  try dsimp only
  rw [hds, except_bind_ok]
  try dsimp only
  obtain ⟨o1, ho1⟩ := @gwc_great_ok fuel h6 0 0 le (pymod (0 - 180) 360)
    (f2m STP) (by norm_num) (by norm_num) (hb360 (0 - 180)) (f2m_nonneg hSTP)
  rw [ho1, except_bind_ok]
  try dsimp only
  have hdep : (500 : ℝ) / tan (arctan (500 / nm2f 1)) = 6076.12 := by
    rw [show nm2f 1 = 6076.12 from by unfold nm2f; norm_num, Real.tan_arctan]
    norm_num
  obtain ⟨o2, ho2⟩ := @gwc_great_ok fuel h6 0 0 le 0
    (f2m (500 / tan (arctan (500 / nm2f 1)))) (by norm_num) (by norm_num)
    (by norm_num) (f2m_nonneg (by rw [hdep]; norm_num))
  rw [ho2, except_bind_ok]
  try dsimp only
  obtain ⟨o3, ho3⟩ := @gwc_great_ok fuel h6 0 0 he 0 (f2m TD)
    (by norm_num) (by norm_num) (by norm_num) (f2m_nonneg hTD)
  rw [ho3, except_bind_ok]
  try dsimp only
  have htan3 : 0 < tan (degrees_to_radians 3) := by
    unfold degrees_to_radians
    apply Real.tan_pos_of_pos_of_lt_pi_div_two
    · positivity
    · nlinarith [Real.pi_pos]
  obtain ⟨o4, ho4⟩ := @gwc_great_ok fuel h6 0 0 he (pymod (0 - 180) 360)
    (f2m (500 / tan (degrees_to_radians 3))) (by norm_num) (by norm_num)
    (hb360 (0 - 180)) (f2m_nonneg (le_of_lt (div_pos (by norm_num) htan3)))
  rw [ho4, except_bind_ok]
  try dsimp only
  obtain ⟨tb, htb, htot⟩ := tt80_block_ok g hval1 hval2 hds
  rw [htb, except_bind_ok]
  try dsimp only
  refine ⟨_, rfl, rfl, htot, ?_, ?_, rfl, rfl, rfl, rfl, rfl⟩
  · rw [htot]
  · rw [htot]

/-- Inversion principle for `Except` bind. -/
lemma except_bind_eq_ok {e a b : Type} {x : Except e a} {f : a → Except e b}
    {y : b} : (x >>= f) = .ok y ↔ ∃ v, x = .ok v ∧ f v = .ok y := by
  cases x with
  | error s => simp [Bind.bind, Except.bind]
  | ok v => simp [Bind.bind, Except.bind]

set_option maxHeartbeats 1000000 in
/-- Field laws of the procedure builder: whenever `makerunway_record`
succeeds, the traffic-pattern altitude, approach horizontal distance,
runway-remaining, and start-point fields have the closed forms read off
the source. -/
lemma makerunway_fields {fuel : ℕ} {g : ℝ → ℝ → ℝ} {row : RwRecord}
    {P : RwParams} {F : RwFields}
    (h : makerunway_record fuel g row P = .ok F) :
    F.tp_alt = (if row.hi_elev > row.lo_elev
        then ((⌈(row.hi_elev + P.TP_Alt) / 100⌉ : ℤ) : ℝ) * 100
        else if row.lo_elev > row.hi_elev
        then ((⌈(row.lo_elev + P.TP_Alt) / 100⌉ : ℤ) : ℝ) * 100
        else P.TP_Alt) ∧
    F.app_horizontal_ft = P.TP_Alt / tan (degrees_to_radians P.G_Slope) ∧
    F.runway_remaining = F.total_distance_ft - P.TD_dist_ft - P.STP_dist_ft ∧
    F.total_distance_ft = m2f F.total_distance_m ∧
    (row.hi_disp_thld = none →
      F.stpt_lat = row.hi_wgs_lat ∧ F.stpt_long = row.hi_wgs_long ∧
      F.hi_disp_thld_ft = 0) ∧
    (∀ dt, row.hi_disp_thld = some dt →
      (F.stpt_lat, F.stpt_long) = calculate_destination_point row.hi_wgs_lat
        row.hi_wgs_long F.rw_brg_rad (f2m dt) ∧ F.hi_disp_thld_ft = dt) := by
  simp only [makerunway_record] at h
  rw [except_bind_eq_ok] at h
  obtain ⟨brg, hbrg, h⟩ := h
  by_cases hr : row.hi_redux ≠ 0
  · rw [if_pos hr] at h
    rw [except_bind_eq_ok] at h
    obtain ⟨me, hme, h⟩ := h
    rw [except_bind_pure] at h
    rw [except_bind_eq_ok] at h
    obtain ⟨values, hv, h⟩ := h
    rw [except_bind_eq_ok] at h
    obtain ⟨stp, hstp, h⟩ := h
    rw [except_bind_eq_ok] at h
    obtain ⟨dep, hdep, h⟩ := h
    cases hdt : row.hi_disp_thld with
    | none =>
      rw [hdt] at h
      dsimp only at h
      rw [except_bind_eq_ok] at h
      obtain ⟨td, htd, h⟩ := h
      rw [except_bind_eq_ok] at h
      obtain ⟨app, happ, h⟩ := h
      rw [except_bind_eq_ok] at h
      obtain ⟨tb, htb, h⟩ := h
      simp only [pure, Except.pure, Except.ok.injEq] at h
      subst h
      exact ⟨rfl, rfl, rfl, rfl, fun _ => ⟨rfl, rfl, rfl⟩,
        fun dt hdt2 => absurd hdt2 (by simp)⟩
    | some dt0 =>
      rw [hdt] at h
      dsimp only at h
      rw [except_bind_eq_ok] at h
      obtain ⟨td, htd, h⟩ := h
      rw [except_bind_eq_ok] at h
      obtain ⟨app, happ, h⟩ := h
      rw [except_bind_eq_ok] at h
      obtain ⟨tb, htb, h⟩ := h
      simp only [pure, Except.pure, Except.ok.injEq] at h
      subst h
      refine ⟨rfl, rfl, rfl, rfl, fun hc => absurd hc (by simp),
        fun dt hdt2 => ?_⟩
      rw [Option.some.injEq] at hdt2
      subst hdt2
      exact ⟨rfl, rfl⟩
  · rw [if_neg hr, except_bind_pure] at h
    rw [except_bind_eq_ok] at h
    obtain ⟨values, hv, h⟩ := h
    rw [except_bind_eq_ok] at h
    obtain ⟨stp, hstp, h⟩ := h
    rw [except_bind_eq_ok] at h
    obtain ⟨dep, hdep, h⟩ := h
    cases hdt : row.hi_disp_thld with
    | none =>
      rw [hdt] at h
      dsimp only at h
      rw [except_bind_eq_ok] at h
      obtain ⟨td, htd, h⟩ := h
      rw [except_bind_eq_ok] at h
      obtain ⟨app, happ, h⟩ := h
      rw [except_bind_eq_ok] at h
      obtain ⟨tb, htb, h⟩ := h
      simp only [pure, Except.pure, Except.ok.injEq] at h
      subst h
      exact ⟨rfl, rfl, rfl, rfl, fun _ => ⟨rfl, rfl, rfl⟩,
        fun dt hdt2 => absurd hdt2 (by simp)⟩
    | some dt0 =>
      rw [hdt] at h
      dsimp only at h
      rw [except_bind_eq_ok] at h
      obtain ⟨td, htd, h⟩ := h
      rw [except_bind_eq_ok] at h
      obtain ⟨app, happ, h⟩ := h
      rw [except_bind_eq_ok] at h
      obtain ⟨tb, htb, h⟩ := h
      simp only [pure, Except.pure, Except.ok.injEq] at h
      subst h
      refine ⟨rfl, rfl, rfl, rfl, fun hc => absurd hc (by simp),
        fun dt hdt2 => ?_⟩
      rw [Option.some.injEq] at hdt2
      subst hdt2
      exact ⟨rfl, rfl⟩

/-- Every entry of the correction table is `(0, 0)`. -/
lemma geoidInitCC_getD (nm : ℕ × ℕ) :
    (geoidInitCC nm).getD (0, 0) = (0, 0) := by
  unfold geoidInitCC create_correction_coefficients
  split <;> rfl

/-- The correction table holds a key iff it is in range. -/
lemma geoidInitCC_isSome (nm : ℕ × ℕ) :
    (geoidInitCC nm).isSome = true ↔ nm.1 ≤ 360 ∧ nm.2 ≤ nm.1 := by
  unfold geoidInitCC create_correction_coefficients
  split <;> simp_all

/-- With the all-zero correction table, the inner loop of `_hundu`
produces the potential-sum inner term and a zero correction term. -/
lemma hunduInner_eq (p sinml cosml : List ℝ) (hc : CoeffTable) (n : ℕ) :
    hunduInner p sinml cosml hc geoidInitCC n =
      (innerPot p sinml cosml hc n, 0) := by
  simp only [hunduInner, innerPot]
  have hkey : ∀ (l : List ℕ), (∀ m ∈ l, m ≤ n) → ∀ x : ℝ,
      l.foldl (fun acc m =>
        let loc := n * (n + 1) / 2 + m + 1
        if loc < p.length ∧ m < cosml.length ∧ m < sinml.length ∧
            (hc (n, m)).isSome ∧ (geoidInitCC (n, m)).isSome then
          ((acc.1 + p.getD loc 0 *
              (((hc (n, m)).getD (0, 0)).1 * cosml.getD m 0 +
               ((hc (n, m)).getD (0, 0)).2 * sinml.getD m 0)),
           (acc.2 + p.getD loc 0 *
              (((geoidInitCC (n, m)).getD (0, 0)).1 * cosml.getD m 0 +
               ((geoidInitCC (n, m)).getD (0, 0)).2 * sinml.getD m 0)))
        else acc) ((x, 0) : ℝ × ℝ) =
      (l.foldl (fun sacc m =>
        if n * (n + 1) / 2 + m + 1 < p.length ∧ m < cosml.length ∧
            m < sinml.length ∧ (hc (n, m)).isSome ∧ n ≤ 360 then
          sacc + p.getD (n * (n + 1) / 2 + m + 1) 0 *
            (((hc (n, m)).getD (0, 0)).1 * cosml.getD m 0 +
              ((hc (n, m)).getD (0, 0)).2 * sinml.getD m 0)
        else sacc) x, 0) := by
    intro l
    induction l with
    | nil => intro _ x; rfl
    | cons m t ih =>
      intro hmem x
      have hm : m ≤ n := hmem m (List.mem_cons_self m t)
      have hguard : ((geoidInitCC (n, m)).isSome = true) ↔ n ≤ 360 := by
        rw [geoidInitCC_isSome]
        exact ⟨fun h => h.1, fun h => ⟨h, hm⟩⟩
      simp only [List.foldl_cons]
      by_cases hg : n * (n + 1) / 2 + m + 1 < p.length ∧ m < cosml.length ∧
          m < sinml.length ∧ ((hc (n, m)).isSome = true) ∧ n ≤ 360
      · rw [if_pos ⟨hg.1, hg.2.1, hg.2.2.1, hg.2.2.2.1, hguard.mpr hg.2.2.2.2⟩,
          if_pos hg]
        have hz : (0 : ℝ) + p.getD (n * (n + 1) / 2 + m + 1) 0 *
            (((geoidInitCC (n, m)).getD (0, 0)).1 * cosml.getD m 0 +
             ((geoidInitCC (n, m)).getD (0, 0)).2 * sinml.getD m 0) = 0 := by
          rw [geoidInitCC_getD]
          ring
        rw [hz]
        exact ih (fun a ha => hmem a (List.mem_cons_of_mem m ha)) _
      · have hg2 : ¬ (n * (n + 1) / 2 + m + 1 < p.length ∧ m < cosml.length ∧
            m < sinml.length ∧ ((hc (n, m)).isSome = true) ∧
            ((geoidInitCC (n, m)).isSome = true)) := by
          intro hc2
          exact hg ⟨hc2.1, hc2.2.1, hc2.2.2.1, hc2.2.2.2.1,
            hguard.mp hc2.2.2.2.2⟩
        rw [if_neg hg2, if_neg hg]
        exact ih (fun a ha => hmem a (List.mem_cons_of_mem m ha)) x
  have hinit : (if n * (n + 1) / 2 + 1 < p.length ∧
        ((hc (n, 0)).isSome = true) ∧ ((geoidInitCC (n, 0)).isSome = true) then
      ((p.getD (n * (n + 1) / 2 + 1) 0 * ((hc (n, 0)).getD (0, 0)).1,
        p.getD (n * (n + 1) / 2 + 1) 0 *
          ((geoidInitCC (n, 0)).getD (0, 0)).1) : ℝ × ℝ)
    else (0, 0)) =
      ((if n * (n + 1) / 2 + 1 < p.length ∧ ((hc (n, 0)).isSome = true) ∧
          n ≤ 360 then
        p.getD (n * (n + 1) / 2 + 1) 0 * ((hc (n, 0)).getD (0, 0)).1
      else 0), 0) := by
    have hg0 : ((geoidInitCC (n, 0)).isSome = true) ↔ n ≤ 360 := by
      rw [geoidInitCC_isSome]
      exact ⟨fun h => h.1, fun h => ⟨h, Nat.zero_le n⟩⟩
    by_cases hg : n * (n + 1) / 2 + 1 < p.length ∧
        ((hc (n, 0)).isSome = true) ∧ n ≤ 360
    · rw [if_pos ⟨hg.1, hg.2.1, hg0.mpr hg.2.2⟩, if_pos hg, geoidInitCC_getD]
      rw [mul_zero]
    · have hg2 : ¬ (n * (n + 1) / 2 + 1 < p.length ∧
          ((hc (n, 0)).isSome = true) ∧
          ((geoidInitCC (n, 0)).isSome = true)) := by
        intro hc2
        exact hg ⟨hc2.1, hc2.2.1, hg0.mp hc2.2.2⟩
      rw [if_neg hg2, if_neg hg]
  rw [hinit]
  exact hkey (List.range' 1 n)
    (fun m hm => by
      have := List.mem_range'_1.mp hm
      omega) _

lemma foldl_hp (p sinml cosml : List ℝ) (hc : CoeffTable) (ar : ℝ)
    (l : List ℕ) : ∀ x a : ℝ,
    l.foldl (hStepD p sinml cosml hc ar) (x, 0, a) =
      ((l.foldl (pStepD p sinml cosml hc ar) (x, a)).1, 0,
       (l.foldl (pStepD p sinml cosml hc ar) (x, a)).2) := by
  induction l with
  | nil => intro x a; rfl
  | cons n t ih =>
    intro x a
    rw [List.foldl_cons, List.foldl_cons,
      show hStepD p sinml cosml hc ar (x, 0, a) n =
        (x * ar, 0, a + innerPot p sinml cosml hc n * (x * ar)) from by
          simp [hStepD, hunduInner_eq],
      show pStepD p sinml cosml hc ar (x, a) n =
        (x * ar, a + innerPot p sinml cosml hc n * (x * ar)) from rfl]
    exact ih (x * ar) _

/-- With the all-zero correction table, the degree loop of `_hundu`
accumulates a zero correction and the harmonic potential sum. -/
lemma hunduLoop_eq (ar : ℝ) (p sinml cosml : List ℝ) (hc : CoeffTable)
    (nmax : ℕ) :
    (hunduLoop ar p sinml cosml hc geoidInitCC nmax).2.1 = 0 ∧
    (hunduLoop ar p sinml cosml hc geoidInitCC nmax).2.2 =
      potentialSum nmax p sinml cosml ar hc := by
  have h := foldl_hp p sinml cosml hc ar (List.range' 2 (nmax - 1)) ar 0
  constructor
  · show ((List.range' 2 (nmax - 1)).foldl
      (hStepD p sinml cosml hc ar) (ar, 0, 0)).2.1 = 0
    rw [h]
  · show ((List.range' 2 (nmax - 1)).foldl
      (hStepD p sinml cosml hc ar) (ar, 0, 0)).2.2 =
        potentialSum nmax p sinml cosml ar hc
    rw [h]
    rfl

/-- `_hundu` with the all-zero correction table: zero height-anomaly
correction and the potential-sum undulation formula. -/
lemma hundu_cc_zero (nmax : ℕ) (p sinml cosml : List ℝ) (gr re : ℝ)
    (hc : CoeffTable) :
    hundu nmax p sinml cosml gr re hc geoidInitCC =
      (potentialSum nmax p sinml cosml (geoidAE / re) hc * geoidGM /
        (gr * re) - 0.53, 0) := by
  simp only [hundu]
  obtain ⟨h1, h2⟩ := hunduLoop_eq (geoidAE / re) p sinml cosml hc nmax
  rw [h1, h2]
  simp only [geoidInitCC_getD]
  split <;> norm_num

/-- At `sigma0 = 0` the correction loop converges after one body. -/
lemma vdLoop_zero (B sigma1 : ℝ) :
    vdLoop B sigma1 0 2 ⟨2 * π, 0, 0, 0, 0⟩ =
      some ⟨0, 0, 0, 1, cos (2 * sigma1)⟩ := by
  have hds : dsig B sigma1 0 = 0 := by
    unfold dsig
    rw [Real.sin_zero]
    ring
  have hstep : vdStep B sigma1 0 ⟨2 * π, 0, 0, 0, 0⟩ =
      ⟨0, 0, 0, 1, cos (2 * sigma1)⟩ := by
    simp [vdStep, hds]
  rw [vdLoop]
  rw [if_pos (by
    rw [show |(0 : ℝ) - 2 * π| = 2 * π from by
      rw [abs_of_nonpos (by nlinarith [Real.pi_pos])]; ring]
    nlinarith [Real.pi_gt_three])]
  rw [hstep, vdLoop]
  rw [if_neg (by norm_num)]

/-- The direct solver at distance zero from the equator with bearing zero
returns latitude `0` and the normalized start longitude. -/
lemma vincenty_direct_zero (lon1 a f : ℝ) (hf : f < 1) :
    vincenty_direct 2 0 lon1 0 0 a f =
      some (0, pymod (lon1 + 3 * π) (2 * π) - π) := by
  have h0 : (vdParams 0 0 0 a f).sigma0 = 0 := by
    simp [vdParams]
  have h1 : (vdParams 0 0 0 a f).sigma1 = 0 := by
    simp only [vdParams]
    rw [Real.tan_zero, Real.cos_zero, mul_zero, atan2_zero_pos one_pos]
  have hsu : (vdParams 0 0 0 a f).sin_u1 = 0 := by
    simp [vdParams]
  have hcu : (vdParams 0 0 0 a f).cos_u1 = 1 := by
    simp only [vdParams]
    rw [Real.tan_zero, mul_zero]
    norm_num
  have hsa1 : (vdParams 0 0 0 a f).sin_alpha1 = 0 := by
    simp [vdParams]
  have hca1 : (vdParams 0 0 0 a f).cos_alpha1 = 1 := by
    simp [vdParams]
  have hsa : (vdParams 0 0 0 a f).sin_alpha = 0 := by
    simp [vdParams]
  simp only [vincenty_direct]
  rw [h1, h0, vdLoop_zero]
  dsimp only
  rw [hsu, hcu, hsa1, hca1, hsa]
  norm_num
  rw [atan2_zero_pos (by linarith : (0 : ℝ) < 1 - f),
    atan2_zero_pos one_pos]
  norm_num

/-- Concrete run of the Direct solver: starting at `(0, -180)` with zero
distance returns longitude `-180`. -/
lemma gwc_lon_neg180 :
    generate_wgs84_coordinate 2 0 (-180) 0 0 0 .great_circle =
      .ok (0, -180, 0) := by
  simp only [generate_wgs84_coordinate]
  rw [if_neg (not_not_intro (by norm_num)),
    if_neg (not_not_intro (by norm_num)),
    if_neg (not_not_intro (by norm_num)),
    if_neg (by norm_num : ¬ (0 : ℝ) < 0)]
  have hd2r0 : degrees_to_radians 0 = 0 := by
    unfold degrees_to_radians
    ring
  have hd2r : degrees_to_radians (-180) = -π := by
    unfold degrees_to_radians
    rw [div_eq_iff (by norm_num : (180 : ℝ) ≠ 0)]
    ring
  rw [hd2r0, hd2r,
    vincenty_direct_zero (-π) 6378137 (1 / 298.257223563) (by norm_num)]
  dsimp only
  have hpm : pymod (-π + 3 * π) (2 * π) = 0 := by
    rw [show -π + 3 * π = 2 * π from by ring]
    unfold pymod
    rw [div_self (by positivity : (2 * π) ≠ 0)]
    norm_num
  rw [hpm]
  unfold radians_to_degrees
  rw [show ((0 : ℝ) - π) * 180 / π = -180 from by
      rw [div_eq_iff Real.pi_ne_zero]; ring,
    show (0 : ℝ) * 180 / π = 0 from by rw [zero_mul, zero_div],
    show (-180 : ℝ) + 180 = 0 from by ring,
    pymod_of_nonneg_of_lt le_rfl (by norm_num)]
  norm_num

/-- Every successful output of the Direct solver front end has its
longitude normalized into `[-180, 180)`. -/
lemma gwc_lon_bounds {fuel : ℕ} {lat lon elev brg dist : ℝ}
    {m : GWCMethod} {out : ℝ × ℝ × ℝ}
    (h : generate_wgs84_coordinate fuel lat lon elev brg dist m = .ok out) :
    -180 ≤ out.2.1 ∧ out.2.1 < 180 := by
  simp only [generate_wgs84_coordinate] at h
  split_ifs at h
  cases m with
  | great_circle =>
    cases hvd : vincenty_direct fuel (degrees_to_radians lat)
        (degrees_to_radians lon) (degrees_to_radians brg) dist 6378137
        (1 / 298.257223563) with
    | none =>
      rw [hvd] at h
      exact Except.noConfusion h
    | some ll =>
      rw [hvd] at h
      simp only [Except.ok.injEq] at h
      rw [← h]
      dsimp only
      have h1 := pymod_nonneg (radians_to_degrees ll.2 + 180)
        (by norm_num : (0 : ℝ) < 360)
      have h2 := pymod_lt (radians_to_degrees ll.2 + 180)
        (by norm_num : (0 : ℝ) < 360)
      constructor <;> [linarith; linarith]
  | rhumb_line =>
    simp only [Except.ok.injEq] at h
    rw [← h]
    dsimp only
    have h1 := pymod_nonneg (radians_to_degrees (rhumb_line_direct
      (degrees_to_radians lat) (degrees_to_radians lon)
      (degrees_to_radians brg) dist 6378137
      (1 / 298.257223563 * (2 - 1 / 298.257223563))).2 + 180)
      (by norm_num : (0 : ℝ) < 360)
    have h2 := pymod_lt (radians_to_degrees (rhumb_line_direct
      (degrees_to_radians lat) (degrees_to_radians lon)
      (degrees_to_radians brg) dist 6378137
      (1 / 298.257223563 * (2 - 1 / 298.257223563))).2 + 180)
      (by norm_num : (0 : ℝ) < 360)
    constructor <;> [linarith; linarith]

/-- Two distinct points closer than the coincidence threshold: the inverse
solver takes the early return and reports azimuth `0`. -/
lemma distanceF_near :
    distanceF (0, 0) (0, 1 / 10 ^ 11) "WGS84" .great_circle false =
      .ok (0, 0) := by
  unfold distanceF
  dsimp only
  rw [if_neg (not_not_intro (by norm_num)),
    if_neg (not_not_intro (by norm_num)), ELLIPSOIDS_WGS84]
  dsimp only
  unfold great_circle_distance
  rw [if_pos ⟨by norm_num, by
    rw [show (0 : ℝ) - 1 / 10 ^ 11 = -(1 / 10 ^ 11) from by ring, abs_neg,
      abs_of_nonneg (by norm_num)]
    norm_num⟩]
  dsimp only
  rw [pyround_zero, pyround_zero]

/-- The spherical initial bearing between the same two points is `π/2`
(due east), not `0`. -/
lemma bearing_near : calculate_initial_bearing 0 0 0 (1 / 10 ^ 11) = π / 2 := by
  simp only [calculate_initial_bearing]
  have h0 : degrees_to_radians 0 = 0 := by
    unfold degrees_to_radians
    ring
  rw [show (1 : ℝ) / 10 ^ 11 - 0 = 1 / 10 ^ 11 from by ring, h0,
    Real.sin_zero, Real.cos_zero]
  rw [show (1 : ℝ) * 0 - 0 * 1 * cos (degrees_to_radians (1 / 10 ^ 11)) = 0
    from by ring, mul_one]
  refine atan2_pos_zero (sin_pos_of_pos_of_lt_pi ?_ ?_)
  · unfold degrees_to_radians
    positivity
  · unfold degrees_to_radians
    nlinarith [Real.pi_pos]

/-- The distance column of the rounded profile. -/
lemma df_dists (lat1 lon1 elev1 lat2 lon2 elev2 total : ℝ) (n : ℕ) :
    ((profileRaw lat1 lon1 elev1 lat2 lon2 elev2 total n).map roundPPoint).map
        (fun p => p.distance_from_start_m) =
      (List.range (n + 2)).map
        (fun i : ℕ => pyround (total / ((n : ℝ) + 1) * (i : ℝ)) 5) := by
  rw [List.map_map,
    show ((fun p : PPoint => p.distance_from_start_m) ∘ roundPPoint) =
      ((fun x : ℝ => pyround x 5) ∘
        (fun p : PPoint => p.distance_from_start_m)) from rfl,
    ← List.map_map, profileRaw_dists, List.map_map]
  rfl

/-- The glide-slope tangent at three degrees is positive. -/
lemma tan_d2r3_pos : 0 < tan (degrees_to_radians 3) := by
  unfold degrees_to_radians
  apply Real.tan_pos_of_pos_of_lt_pi_div_two
  · positivity
  · nlinarith [Real.pi_pos]

/-- C1: on valid endpoints whose geodesic distance exceeds the rounding
grain over the `n+1` intervals, the profile has exactly `n + 2` entries,
its distance column is the equally spaced rounded grid
`i * total/(n+1)`, and the distances are strictly increasing.  (The
strictness genuinely needs a positive total distance: see the
counterexample for coincident endpoints.) -/
theorem C1_profile_structure (lat1 lon1 elev1 lat2 lon2 elev2 az total : ℝ)
    (n : ℕ) (h1 : validCoordinates lat1 lon1 elev1)
    (h2 : validCoordinates lat2 lon2 elev2)
    (hd : distanceF (lat1, lon1) (lat2, lon2) "WGS84" .great_circle false =
      .ok (az, total))
    (ht : 1e-5 * ((n : ℝ) + 1) < total) :
    ∃ G, generate_equidistant_points lat1 lon1 elev1 lat2 lon2 elev2 n =
        .ok G ∧
      G.df.length = n + 2 ∧
      G.df.map (fun p => p.distance_from_start_m) =
        (List.range (n + 2)).map
          (fun i : ℕ => pyround (total / ((n : ℝ) + 1) * (i : ℝ)) 5) ∧
      List.Chain' (fun a b : ℝ => a < b)
        (G.df.map (fun p => p.distance_from_start_m)) := by
  refine ⟨_, generate_eval h1 h2 hd, ?_, ?_, ?_⟩
  · dsimp only
    rw [List.length_map, profileRaw_length]
  · dsimp only
    exact df_dists lat1 lon1 elev1 lat2 lon2 elev2 total n
  · dsimp only
    rw [df_dists]
    refine chain'_lt_map_range _ _ ?_
    intro i _
    refine pyround5_strict ?_
    have hpos : (0 : ℝ) < (n : ℝ) + 1 := by positivity
    have hD : 1e-5 < total / ((n : ℝ) + 1) := by
      rw [lt_div_iff₀ hpos]
      linarith
    push_cast
    rw [mul_add, mul_one]
    linarith

/-- C1 witness: the equator-quadrant profile with 15 interior points. -/
theorem C1_witness :
    ∃ G, generate_equidistant_points 0 0 0 0 90 0 15 = .ok G ∧
      G.df.length = 15 + 2 ∧
      List.Chain' (fun a b : ℝ => a < b)
        (G.df.map (fun p => p.distance_from_start_m)) := by
  obtain ⟨D, hd, hD⟩ := distanceF_0_90
  obtain ⟨G, hGen, hlen, -, hch⟩ := C1_profile_structure 0 0 0 0 90 0 90 D 15
    (by unfold validCoordinates; norm_num)
    (by unfold validCoordinates; norm_num) hd (by push_cast; linarith)
  exact ⟨G, hGen, hlen, hch⟩

/-- C1 counterexample: on coincident (valid) endpoints the inverse solver
returns distance `0`, every profile distance is `0`, and the distance
column is not strictly increasing. -/
theorem C1_counterexample :
    ∃ G, generate_equidistant_points 0 0 0 0 0 0 15 = .ok G ∧
      G.df.length = 15 + 2 ∧
      ¬ List.Chain' (fun a b : ℝ => a < b)
        (G.df.map (fun p => p.distance_from_start_m)) := by
  have hv : validCoordinates 0 0 0 := by unfold validCoordinates; norm_num
  have hd := @distanceF_same 0 0 (by norm_num) (by norm_num)
  refine ⟨_, generate_eval hv hv hd, ?_, ?_⟩
  · dsimp only
    rw [List.length_map, profileRaw_length]
  · dsimp only
    rw [df_dists]
    intro hch
    rw [List.chain'_map, show (15 + 2 : ℕ) = 16 + 1 from rfl,
      List.chain'_range_succ] at hch
    have h01 := hch 0 (by norm_num)
    have hz : ∀ k : ℕ, (0 : ℝ) / (((15 : ℕ) : ℝ) + 1) * (k : ℝ) = 0 := by
      intro k
      rw [zero_div, zero_mul]
    rw [hz, hz, pyround_zero] at h01
    exact lt_irrefl 0 h01

/-- C2: the displaced-threshold handling of the procedure builder.  When
the field is absent the start point is the high-end coordinate and the
displaced distance output is `0`; when it is present the start point is
the forward-solved destination along the runway bearing and the distance
is carried through. -/
theorem C2_start_point {fuel : ℕ} {g : ℝ → ℝ → ℝ} {row : RwRecord}
    {P : RwParams} {F : RwFields}
    (h : makerunway_record fuel g row P = .ok F) :
    (row.hi_disp_thld = none →
      F.stpt_lat = row.hi_wgs_lat ∧ F.stpt_long = row.hi_wgs_long ∧
      F.hi_disp_thld_ft = 0) ∧
    (∀ dt, row.hi_disp_thld = some dt →
      (F.stpt_lat, F.stpt_long) = calculate_destination_point row.hi_wgs_lat
        row.hi_wgs_long F.rw_brg_rad (f2m dt) ∧ F.hi_disp_thld_ft = dt) := by
  obtain ⟨-, -, -, -, h5, h6⟩ := makerunway_fields h
  exact ⟨h5, h6⟩

/-- C2 witness: a concrete record with no displaced threshold. -/
theorem C2_witness :
    ∃ F, makerunway_record 6 (fun _ _ => 0) ⟨0, 0, 0, none, 0, 0, 0, 0, 0, 0⟩
        ⟨0, 0, 3, 500, 0, 0, 1⟩ = .ok F ∧
      F.stpt_lat = 0 ∧ F.stpt_long = 0 ∧ F.hi_disp_thld_ft = 0 := by
  obtain ⟨F, hF, -⟩ := makerunway_A 6 le_rfl (fun _ _ => 0) 0 0 0 0 0 0 0 0
    le_rfl le_rfl (by norm_num) (by norm_num)
  exact ⟨F, hF, (C2_start_point hF).1 rfl⟩

/-- C3: the runway-remaining output is exactly total profile distance in
feet minus touchdown and stopping distances; it is non-negative only
under the extra assumption that those two fit inside the total. -/
theorem C3_runway_remaining {fuel : ℕ} {g : ℝ → ℝ → ℝ} {row : RwRecord}
    {P : RwParams} {F : RwFields}
    (h : makerunway_record fuel g row P = .ok F) :
    F.runway_remaining = F.total_distance_ft - P.TD_dist_ft - P.STP_dist_ft ∧
    (P.TD_dist_ft + P.STP_dist_ft ≤ F.total_distance_ft →
      0 ≤ F.runway_remaining) := by
  obtain ⟨-, -, h3, -, -, -⟩ := makerunway_fields h
  exact ⟨h3, fun hle => by rw [h3]; linarith⟩

/-- C3 witness: with zero touchdown and stopping distances the remaining
distance is the (non-negative) total. -/
theorem C3_witness :
    ∃ F, makerunway_record 6 (fun _ _ => 0) ⟨0, 0, 0, none, 0, 0, 0, 0, 0, 0⟩
        ⟨0, 0, 3, 500, 0, 0, 1⟩ = .ok F ∧
      F.runway_remaining = F.total_distance_ft - 0 - 0 ∧
      0 ≤ F.runway_remaining := by
  obtain ⟨F, hF, -, -, htf, -⟩ := makerunway_A 6 le_rfl (fun _ _ => 0) 0 0 0 0
    0 0 0 0 le_rfl le_rfl (by norm_num) (by norm_num)
  have h := C3_runway_remaining hF
  refine ⟨F, hF, h.1, h.2 ?_⟩
  rw [htf]
  unfold m2f
  norm_num

/-- C3 counterexample: a coincident runway (total distance `0`) with a
positive touchdown distance makes the remaining distance negative. -/
theorem C3_counterexample :
    ∃ F, makerunway_record 6 (fun _ _ => 0) ⟨0, 0, 0, none, 0, 0, 0, 0, 0, 0⟩
        ⟨1, 0, 3, 500, 0, 0, 1⟩ = .ok F ∧ F.runway_remaining < 0 := by
  obtain ⟨F, hF, -, -, -, hrem, -⟩ := makerunway_A 6 le_rfl (fun _ _ => 0) 0 0
    0 0 1 0 0 0 (by norm_num) (by norm_num) (by norm_num) (by norm_num)
  refine ⟨F, hF, ?_⟩
  rw [hrem]
  unfold m2f
  norm_num

/-- C4: each interior profile point is produced by the spherical helpers
`calculate_initial_bearing` and `calculate_destination_point` of
TT80Calculator, not by the ellipsoidal engine (see the counterexample for
the discrepancy with the engine azimuth). -/
theorem C4_interior_points (lat1 lon1 elev1 lat2 lon2 elev2 az total : ℝ)
    (n i : ℕ) (h1 : validCoordinates lat1 lon1 elev1)
    (h2 : validCoordinates lat2 lon2 elev2)
    (hd : distanceF (lat1, lon1) (lat2, lon2) "WGS84" .great_circle false =
      .ok (az, total)) (hi : i < n) :
    ∃ G, generate_equidistant_points lat1 lon1 elev1 lat2 lon2 elev2 n =
        .ok G ∧
      G.df[i + 1]? = some (roundPPoint ⟨i + 1, "TT80_pt_" ++ toString (i + 1),
        (calculate_destination_point lat1 lon1
          (calculate_initial_bearing lat1 lon1 lat2 lon2)
          (total / ((n : ℝ) + 1) * ((i : ℝ) + 1))).1,
        (calculate_destination_point lat1 lon1
          (calculate_initial_bearing lat1 lon1 lat2 lon2)
          (total / ((n : ℝ) + 1) * ((i : ℝ) + 1))).2,
        interpolate_elevation elev1
          (calculate_elevation_slope elev1 elev2 total)
          (total / ((n : ℝ) + 1) * ((i : ℝ) + 1)),
        total / ((n : ℝ) + 1) * ((i : ℝ) + 1)⟩) := by
  refine ⟨_, generate_eval h1 h2 hd, ?_⟩
  dsimp only
  rw [List.getElem?_map, profileRaw_get_interior lat1 lon1 elev1 lat2 lon2
    elev2 total n i hi, Option.map_some']

/-- C4 witness: the first interior point of the equator-quadrant profile. -/
theorem C4_witness :
    ∃ total G,
      distanceF (0, 0) (0, 90) "WGS84" DistMethod.great_circle false =
        .ok (90, total) ∧
      generate_equidistant_points 0 0 0 0 90 0 15 = .ok G ∧
      G.df[0 + 1]? = some (roundPPoint ⟨0 + 1, "TT80_pt_" ++ toString (0 + 1),
        (calculate_destination_point 0 0 (calculate_initial_bearing 0 0 0 90)
          (total / (((15 : ℕ) : ℝ) + 1) * (((0 : ℕ) : ℝ) + 1))).1,
        (calculate_destination_point 0 0 (calculate_initial_bearing 0 0 0 90)
          (total / (((15 : ℕ) : ℝ) + 1) * (((0 : ℕ) : ℝ) + 1))).2,
        interpolate_elevation 0 (calculate_elevation_slope 0 0 total)
          (total / (((15 : ℕ) : ℝ) + 1) * (((0 : ℕ) : ℝ) + 1)),
        total / (((15 : ℕ) : ℝ) + 1) * (((0 : ℕ) : ℝ) + 1)⟩) := by
  obtain ⟨D, hd, -⟩ := distanceF_0_90
  obtain ⟨G, hG, hget⟩ := C4_interior_points 0 0 0 0 90 0 90 D 15 0
    (by unfold validCoordinates; norm_num)
    (by unfold validCoordinates; norm_num) hd (by norm_num)
  exact ⟨D, G, hd, hG, hget⟩

/-- C4 counterexample: for two points a hair apart on the equator the
engine inverse solution takes the coincidence early return and reports
azimuth `0`, while the profile generator's spherical bearing helper
returns `π/2`: the helper does not agree with the engine azimuth. -/
theorem C4_counterexample :
    distanceF (0, 0) (0, 1 / 10 ^ 11) "WGS84" .great_circle false =
      .ok (0, 0) ∧
    calculate_initial_bearing 0 0 0 (1 / 10 ^ 11) = π / 2 ∧
    (π / 2 : ℝ) ≠ 0 :=
  ⟨distanceF_near, bearing_near, by positivity⟩

/-- C5: for a positive total distance the profile elevation slope is the
arctangent of rise over run (an angle), and the interior elevation is the
linear formula `elev1 + slope * t` applied to that angle, exactly as
written in the source. -/
theorem C5_slope_interpolation (elev1 elev2 d t : ℝ) (hd : 0 < d) :
    calculate_elevation_slope elev1 elev2 d = arctan ((elev2 - elev1) / d) ∧
    interpolate_elevation elev1 (calculate_elevation_slope elev1 elev2 d) t =
      elev1 + calculate_elevation_slope elev1 elev2 d * t := by
  constructor
  · unfold calculate_elevation_slope
    rw [if_neg hd.ne']
  · rfl

/-- C5 witness: concrete slope and interpolation values. -/
theorem C5_witness :
    (0 : ℝ) < 1 ∧
    (calculate_elevation_slope 0 1 1 = arctan ((1 - 0) / 1) ∧
     interpolate_elevation 0 (calculate_elevation_slope 0 1 1) 5 =
       0 + calculate_elevation_slope 0 1 1 * 5) :=
  ⟨by norm_num, C5_slope_interpolation 0 1 1 5 (by norm_num)⟩

/-- C6: the recorded traffic-pattern altitude is rounded up from the
higher elevation plus the offset only when the two endpoint elevations
differ; when they are equal it falls through to the bare configured
offset (see the counterexample). -/
theorem C6_tp_alt {fuel : ℕ} {g : ℝ → ℝ → ℝ} {row : RwRecord}
    {P : RwParams} {F : RwFields}
    (h : makerunway_record fuel g row P = .ok F) :
    F.tp_alt = (if row.hi_elev > row.lo_elev
        then ((⌈(row.hi_elev + P.TP_Alt) / 100⌉ : ℤ) : ℝ) * 100
        else if row.lo_elev > row.hi_elev
        then ((⌈(row.lo_elev + P.TP_Alt) / 100⌉ : ℤ) : ℝ) * 100
        else P.TP_Alt) :=
  (makerunway_fields h).1

/-- C6 witness: distinct endpoint elevations take the rounded-up branch. -/
theorem C6_witness :
    ∃ F, makerunway_record 6 (fun _ _ => 0) ⟨0, 0, 100, none, 0, 0, 0, 0, 0, 0⟩
        ⟨0, 0, 3, 500, 0, 0, 1⟩ = .ok F ∧
      F.tp_alt = (if (100 : ℝ) > 0
        then ((⌈((100 : ℝ) + 500) / 100⌉ : ℤ) : ℝ) * 100
        else if (0 : ℝ) > 100
        then ((⌈((0 : ℝ) + 500) / 100⌉ : ℤ) : ℝ) * 100
        else 500) := by
  obtain ⟨F, hF, -⟩ := makerunway_A 6 le_rfl (fun _ _ => 0) 100 0 0 0 0 0 0 0
    le_rfl le_rfl (by norm_num) (by norm_num)
  exact ⟨F, hF, C6_tp_alt hF⟩

/-- C6 counterexample: equal endpoint elevations of 500 ft yield a
traffic-pattern altitude of 500, not the claimed
`ceil((500 + 500)/100) * 100 = 1000`. -/
theorem C6_counterexample :
    ∃ F, makerunway_record 6 (fun _ _ => 0)
        ⟨0, 0, 500, none, 0, 0, 0, 0, 500, 0⟩
        ⟨0, 0, 3, 500, 0, 0, 1⟩ = .ok F ∧
      F.tp_alt = 500 ∧
      ((⌈(max (500 : ℝ) 500 + 500) / 100⌉ : ℤ) : ℝ) * 100 = 1000 ∧
      (500 : ℝ) ≠ 1000 := by
  obtain ⟨F, hF, htp, -⟩ := makerunway_A 6 le_rfl (fun _ _ => 0) 500 500 0 0
    0 0 0 0 le_rfl le_rfl (by norm_num) (by norm_num)
  refine ⟨F, hF, ?_, ?_, by norm_num⟩
  · rw [htp, if_neg (lt_irrefl (500 : ℝ)), if_neg (lt_irrefl (500 : ℝ))]
  · rw [max_self]
    norm_num

/-- C7: the approach-point horizontal distance in the output is computed
from the configured base traffic-pattern altitude `P.TP_Alt`, not from the
per-record rounded-up altitude (see the counterexample). -/
theorem C7_app_horizontal {fuel : ℕ} {g : ℝ → ℝ → ℝ} {row : RwRecord}
    {P : RwParams} {F : RwFields}
    (h : makerunway_record fuel g row P = .ok F) :
    F.app_horizontal_ft = P.TP_Alt / tan (degrees_to_radians P.G_Slope) :=
  (makerunway_fields h).2.1

/-- C7 witness: the all-default record gives `500 / tan 3°`. -/
theorem C7_witness :
    ∃ F, makerunway_record 6 (fun _ _ => 0) ⟨0, 0, 0, none, 0, 0, 0, 0, 0, 0⟩
        ⟨0, 0, 3, 500, 0, 0, 1⟩ = .ok F ∧
      F.app_horizontal_ft = 500 / tan (degrees_to_radians 3) := by
  obtain ⟨F, hF, -⟩ := makerunway_A 6 le_rfl (fun _ _ => 0) 0 0 0 0 0 0 0 0
    le_rfl le_rfl (by norm_num) (by norm_num)
  exact ⟨F, hF, C7_app_horizontal hF⟩

/-- C7 counterexample: with a 100 ft high end the record's traffic-pattern
altitude is 600 ft, yet the approach horizontal distance still uses the
500 ft base, so it differs from `TP_Alt / tan(glide_slope)` computed for
that record. -/
theorem C7_counterexample :
    ∃ F, makerunway_record 6 (fun _ _ => 0) ⟨0, 0, 100, none, 0, 0, 0, 0, 0, 0⟩
        ⟨0, 0, 3, 500, 0, 0, 1⟩ = .ok F ∧
      F.tp_alt = 600 ∧
      F.app_horizontal_ft = 500 / tan (degrees_to_radians 3) ∧
      F.app_horizontal_ft ≠ F.tp_alt / tan (degrees_to_radians 3) := by
  obtain ⟨F, hF, htp, -, -, -, -, -, -, happ, -⟩ := makerunway_A 6 le_rfl
    (fun _ _ => 0) 100 0 0 0 0 0 0 0 le_rfl le_rfl (by norm_num) (by norm_num)
  have htp6 : F.tp_alt = 600 := by
    rw [htp, if_pos (by norm_num : (100 : ℝ) > 0)]
    norm_num
  refine ⟨F, hF, htp6, happ, ?_⟩
  rw [happ, htp6]
  intro heq
  rw [div_eq_div_iff tan_d2r3_pos.ne' tan_d2r3_pos.ne'] at heq
  nlinarith [tan_d2r3_pos]

/-- C8: every longitude returned by the Direct solver front end lies in
the half-open interval `[-180, 180)` — closed on the left and open on the
right, not the `(-180, 180]` claimed (see the counterexample at exactly
`-180`). -/
theorem C8_longitude_range {fuel : ℕ} {lat lon elev brg dist : ℝ}
    {m : GWCMethod} {out : ℝ × ℝ × ℝ}
    (h : generate_wgs84_coordinate fuel lat lon elev brg dist m = .ok out) :
    -180 ≤ out.2.1 ∧ out.2.1 < 180 := by
  have := gwc_lon_bounds h
  exact this

/-- C8 witness: a successful run whose longitude obeys the bounds. -/
theorem C8_witness :
    generate_wgs84_coordinate 2 0 (-180) 0 0 0 .great_circle =
      .ok (0, -180, 0) ∧
    -180 ≤ ((0 : ℝ), (-180 : ℝ), (0 : ℝ)).2.1 ∧
      ((0 : ℝ), (-180 : ℝ), (0 : ℝ)).2.1 < 180 :=
  ⟨gwc_lon_neg180, C8_longitude_range gwc_lon_neg180⟩

/-- C8 counterexample: the solver returns longitude exactly `-180`, which
is outside the claimed interval `(-180, 180]`. -/
theorem C8_counterexample :
    generate_wgs84_coordinate 2 0 (-180) 0 0 0 .great_circle =
      .ok (0, -180, 0) ∧
    ((0 : ℝ), (-180 : ℝ), (0 : ℝ)).2.1 ∉ Set.Ioc (-180 : ℝ) 180 :=
  ⟨gwc_lon_neg180, by norm_num [Set.mem_Ioc]⟩

/-- C9: the angular-distance correction iteration of the direct solver
carries no iteration cap in the source — its only exit is the `1e-12`
convergence test (see the counterexample) — but on WGS84 it always
converges: it exits with successive iterates within `1e-12` of each
other, and any iteration bound of at least 6 returns the same
(successful) result, so the iteration is in fact bounded by 6 bodies for
every real input. -/
theorem C9_direct_terminates (lat1 lon1 bearing dist : ℝ) :
    (∃ s, vdLoop (vdParams lat1 bearing dist 6378137 (1 / 298.257223563)).bigB
        (vdParams lat1 bearing dist 6378137 (1 / 298.257223563)).sigma1
        (vdParams lat1 bearing dist 6378137 (1 / 298.257223563)).sigma0 6
        ⟨2 * π, (vdParams lat1 bearing dist 6378137
          (1 / 298.257223563)).sigma0, 0, 0, 0⟩ = some s ∧
      |s.sigma - s.sigma_prev| ≤ 1e-12) ∧
    ∃ out, ∀ fuel, 6 ≤ fuel →
      vincenty_direct fuel lat1 lon1 bearing dist 6378137
        (1 / 298.257223563) = some out := by
  have hB := vdParams_B_bounds lat1 bearing dist
  have hs := vdLoop_init_some
    (vdParams lat1 bearing dist 6378137 (1 / 298.257223563)).bigB
    (vdParams lat1 bearing dist 6378137 (1 / 298.257223563)).sigma1
    (vdParams lat1 bearing dist 6378137 (1 / 298.257223563)).sigma0
    hB.1 hB.2
  obtain ⟨s, hsome⟩ := Option.isSome_iff_exists.mp hs
  refine ⟨⟨s, hsome, vdLoop_exit hsome⟩, ?_⟩
  obtain ⟨out, hout⟩ := vincenty_direct_some 6 le_rfl lat1 lon1 bearing dist
  refine ⟨out, fun fuel h6 => ?_⟩
  simp only [vincenty_direct] at hout ⊢
  rw [hsome] at hout
  rw [vdLoop_mono h6 hsome]
  exact hout

/-- C9 counterexample: the correction loop has no explicit iteration cap.
After one body from the real initial state (`sigma_prev = 2π`,
`sigma = 0`) the faithful model of the `while` loop is still running —
nothing in the code bounds the iteration count; only the convergence
test (together with the contraction proven above) stops it. -/
theorem C9_counterexample :
    vdLoop 0 0 0 1 ⟨2 * π, 0, 0, 0, 0⟩ = none := by
  rw [vdLoop]
  rw [if_pos (by
    rw [show |(0 : ℝ) - 2 * π| = 2 * π from by
      rw [abs_of_nonpos (by nlinarith [Real.pi_pos])]; ring]
    nlinarith [Real.pi_gt_three])]
  rfl

/-- C9 witness: the solver at the minimal bound on a concrete input. -/
theorem C9_witness :
    ∃ out, vincenty_direct 6 0 0 0 0 6378137 (1 / 298.257223563) =
      some out := by
  obtain ⟨-, out, h⟩ := C9_direct_terminates 0 0 0 0
  exact ⟨out, h 6 le_rfl⟩

/-- C10: the correction table is all-zero wherever it holds a key, the
height-anomaly correction returned by `_hundu` is exactly `0`, and the
undulation is the harmonic potential sum scaled by `GM/(gr * re)` minus
the `0.53` m constant. -/
theorem C10_geoid_correction (nmax : ℕ) (p sinml cosml : List ℝ)
    (gr re : ℝ) (hc : CoeffTable) :
    (∀ nm v, geoidInitCC nm = some v → v = (0, 0)) ∧
    hundu nmax p sinml cosml gr re hc geoidInitCC =
      (potentialSum nmax p sinml cosml (geoidAE / re) hc * geoidGM /
        (gr * re) - 0.53, 0) := by
  refine ⟨?_, hundu_cc_zero nmax p sinml cosml gr re hc⟩
  intro nm v hv
  unfold geoidInitCC create_correction_coefficients at hv
  split at hv
  · exact ((Option.some.injEq _ _).mp hv).symm
  · exact Option.noConfusion hv

/-- C10 witness: a concrete instance of the zero-correction law. -/
theorem C10_witness :
    geoidInitCC (0, 0) = some (0, 0) ∧
    hundu 2 [] [] [] 1 1 (fun _ => none) geoidInitCC =
      (potentialSum 2 [] [] [] (geoidAE / 1) (fun _ => none) * geoidGM /
        (1 * 1) - 0.53, 0) :=
  ⟨rfl, (C10_geoid_correction 2 [] [] [] 1 1 (fun _ => none)).2⟩

end
